import Mathlib

/-! Literal and identifier engine of the Dale compiler.

A shallow embedding of `src/dale/Form/Proc/Token/Token.cpp`
(`parseStringLiteral`, `parseFloatingPointLiteral`, `parseIntegerLiteral`,
`parseBoolLiteral`, `parseCharLiteral`, `FormProcTokenParse`) together with
the properties the specification states about them.

Conventions of the embedding:
* a `std::string` is a `List Char`; every `Char` stands for one byte;
* a C++ pointer that may be `NULL` is a type with a `null` constructor
  (`DType`, `Value`) or an `Option`;
* the mutable objects reached through `units` (diagnostic log, scope,
  module, name counter), the basic block and the `ParseResult` out-parameter
  are passed in and returned explicitly;
* a result of `none` stands for undefined behaviour (a null dereference,
  a failed `assert`) or for a loop that ran out of fuel.
-/

namespace dale

/-! ## Data model -/

/-- Token categories (`TokenType`). `String` is the category of identifiers. -/
inductive TokenType
  | Null | LeftParen | RightParen | String | Int | FloatingPoint
  | StringLiteral | Eof
  deriving DecidableEq, Repr

/-- A lexical token: category and raw text (`type`, `str_value`). -/
structure Token where
  type : TokenType
  str_value : List Char
  deriving DecidableEq, Repr

/-- A syntax node. Only `is_token` and `token` are read by this file's code;
`token` is `none` for the null pointer of a list node. -/
structure Node where
  is_token : Bool
  token : Option Token
  deriving DecidableEq, Repr

/-- Base types (`BaseType`); `None` is the value 0 of a non-basic type. -/
inductive BaseType
  | None | Void | Bool | Char | Int | UInt | IntPtr | Size | PtrDiff
  | Int8 | UInt8 | Int16 | UInt16 | Int32 | UInt32 | Int64 | UInt64
  | Int128 | UInt128 | Float | Double | LongDouble
  deriving DecidableEq, Repr

/-- A `Type *`: either the null pointer or a type record with the fields the
code reads (`base_type`, `is_const`, `points_to`, `is_array`, `array_type`,
`array_size`, `struct_name`). -/
inductive DType
  | null
  | mk (base_type : BaseType) (is_const : Bool) (points_to : DType)
      (is_array : Bool) (array_type : DType) (array_size : Nat)
      (struct_name : List Char)
  deriving DecidableEq, Repr

namespace DType

def base_type : DType → BaseType
  | null => BaseType.None
  | mk b _ _ _ _ _ _ => b

def is_const : DType → Bool
  | null => false
  | mk _ c _ _ _ _ _ => c

def points_to : DType → DType
  | null => null
  | mk _ _ p _ _ _ _ => p

def is_array : DType → Bool
  | null => false
  | mk _ _ _ a _ _ _ => a

def array_type : DType → DType
  | null => null
  | mk _ _ _ _ t _ _ => t

def array_size : DType → Nat
  | null => 0
  | mk _ _ _ _ _ n _ => n

def struct_name : DType → List Char
  | null => []
  | mk _ _ _ _ _ _ s => s

/-- The test `if (p)` on a `Type *`. -/
def isNonNull : DType → Bool
  | null => false
  | mk _ _ _ _ _ _ _ => true

end DType

/-- The three floating-point representations. -/
inductive FPKind
  | Float | Double | LongDouble
  deriving DecidableEq, Repr

/-- An `llvm::Value *`: constants, storage handles and the two instructions
this code emits. -/
inductive Value
  | null
  /-- Result of `llvm::ConstantInt::get(type-of-width-bits, value)`. -/
  | constInt (bits : Nat) (value : Nat)
  /-- Result of `getConstantInt(type-of-width-bits, text)`: the integer parsed
  from `text`. -/
  | constIntOfText (bits : Nat) (text : List Char)
  /-- Result of `llvm::ConstantFP::get(type, text)`. -/
  | constFP (kind : FPKind) (text : List Char)
  /-- Result of `ConstantDataArray::getString`: the bytes, terminator included. -/
  | constString (bytes : List Char)
  /-- The storage of a declared variable. -/
  | storage (id : Nat)
  /-- A global variable of the module, by name. -/
  | global (name : List Char)
  /-- Instruction `CreateGEP(base, (i, j))`. -/
  | gep (base : Value) (i j : Nat)
  /-- Instruction `CreateLoad(addr)`. -/
  | load (addr : Value)
  deriving DecidableEq, Repr

def Value.isNonNull : Value → Bool
  | Value.null => false
  | _ => true

/-- The severity this code names when it takes a checkpoint of the log
(`ErrorType::Error`). The diagnostics of the spec carry a kind, a location
and arguments, and no severity. -/
inductive ErrorType
  | Error
  deriving DecidableEq, Repr

/-- The diagnostics this code creates (`ErrorInst::Generator`), and a
constructor for every other one. -/
inductive ErrorInst
  | UnexpectedElement | CannotParseLiteral | InvalidChar
  | VariableNotInScope | RedefinitionOfVariable | UnableToParseForm
  | Other (code : Nat)
  deriving DecidableEq, Repr

/-- An argument of a diagnostic: a C string, or the printed form of a type
(kept as the type itself). -/
inductive ErrArg
  | text (s : List Char)
  | type (t : DType)
  deriving DecidableEq, Repr

/-- A diagnostic: its kind (instance), the node it is reported at, its
arguments. -/
structure Error where
  inst : ErrorInst
  node : Node
  args : List ErrArg
  deriving DecidableEq, Repr

/-- The constructor `new Error(inst, node, args...)`. -/
def Error.new (inst : ErrorInst) (node : Node) (args : List ErrArg) : Error :=
  { inst := inst, node := node, args := args }

/-- Linkages (`Linkage`); only `Intern` is named by this code. -/
inductive Linkage
  | Auto | Intern | Other (code : Nat)
  deriving DecidableEq, Repr

/-- A variable: `name`, `internal_name`, `type`, `value` (storage handle),
`linkage`. -/
structure Variable where
  name : List Char
  internal_name : List Char
  type : DType
  value : Value
  linkage : Linkage
  deriving DecidableEq, Repr

/-- A global variable of the LLVM module. -/
structure GlobalVariable where
  name : List Char
  type : DType
  linkage : Option Linkage
  initializer : Value
  constant : Bool
  deriving DecidableEq, Repr

/-- An enum or struct of the registry; only handed on to the enum-literal
parser. -/
structure Enum where
  name : List Char
  deriving DecidableEq, Repr

structure Struct where
  name : List Char
  deriving DecidableEq, Repr

/-- The unit context: the diagnostic log `er` (oldest first), the active
scope `ns`, the enclosing scopes `outer` (innermost first), and the enum and
struct registries. -/
structure Context where
  er : List Error
  ns : List Variable
  outer : List (List Variable)
  enums : List Enum
  structs : List Struct
  deriving DecidableEq, Repr

/-- The top unit of `units`: context, module globals, and the counter of the
unused-name generator. -/
structure Units where
  ctx : Context
  module : List GlobalVariable
  var_count : Nat
  deriving DecidableEq, Repr

/-- A basic block: its identity and the instructions appended so far. -/
structure BasicBlock where
  id : Nat
  insts : List Value
  deriving DecidableEq, Repr

/-- The out-parameter `ParseResult`. -/
structure ParseResult where
  block : Nat
  type : DType
  value : Value
  address_of_value : Value
  type_of_address_of_value : DType
  value_is_lvalue : Bool
  deriving DecidableEq, Repr

/-- The platform description (`NativeTypes`) and the two integer queries of
`Type` whose bodies are not part of the translated file. -/
structure NativeTypes where
  native_int_size : Nat
  native_char_size : Nat
  internalSizeToRealSize : Nat → Nat
  getIntegerSize : DType → Nat

/-! ## Collaborators whose bodies are outside the translated file -/

/-- Modelled from the spec: `Token::tokenType()`, the printed name of a token
category, used as the "actual category" argument of a diagnostic. -/
def Token.tokenType (t : Token) : List Char :=
  match t.type with
  | TokenType.Null => "null".toList
  | TokenType.LeftParen => "left parenthesis".toList
  | TokenType.RightParen => "right parenthesis".toList
  | TokenType.String => "symbol".toList
  | TokenType.Int => "integer".toList
  | TokenType.FloatingPoint => "floating point number".toList
  | TokenType.StringLiteral => "string literal".toList
  | TokenType.Eof => "EOF".toList

/-- Modelled from the spec: canonical type handles of the type register
(`getBasicType`, `getConstType`, `getPointerType`, `getArrayType`). -/
def getBasicType (b : BaseType) : DType :=
  DType.mk b false DType.null false DType.null 0 []

def getConstType : DType → DType
  | DType.null => DType.null
  | DType.mk b _ p a t n s => DType.mk b true p a t n s

def getPointerType (t : DType) : DType :=
  DType.mk BaseType.None false t false DType.null 0 []

def getArrayType (t : DType) (size : Nat) : DType :=
  DType.mk BaseType.None false DType.null true t size []

def type_bool : DType := getBasicType BaseType.Bool
def type_char : DType := getBasicType BaseType.Char
def type_int : DType := getBasicType BaseType.Int
def type_float : DType := getBasicType BaseType.Float
def type_double : DType := getBasicType BaseType.Double
def type_longdouble : DType := getBasicType BaseType.LongDouble

/-- Modelled from the spec: `Type::isIntegerType()`, true of the integer-like
base types, whatever the qualifiers. -/
def DType.isIntegerType (t : DType) : Bool :=
  match t.base_type with
  | BaseType.Char | BaseType.Int | BaseType.UInt | BaseType.IntPtr
  | BaseType.Size | BaseType.PtrDiff
  | BaseType.Int8 | BaseType.UInt8 | BaseType.Int16 | BaseType.UInt16
  | BaseType.Int32 | BaseType.UInt32 | BaseType.Int64 | BaseType.UInt64
  | BaseType.Int128 | BaseType.UInt128 => true
  | _ => false

/-- The NUL byte. -/
def NUL : Char := Char.ofNat 0

/-- The C string seen through `std::string::c_str()` by `strcmp`, `strlen`
and `const char *` parameters: the bytes before the first NUL. -/
def c_str (s : List Char) : List Char :=
  s.takeWhile (fun c => c != NUL)

/-- `ErrorReporter::addError`: append to the log. -/
def Context.addError (ctx : Context) (e : Error) : Context :=
  { ctx with er := ctx.er ++ [e] }

def Units.addError (units : Units) (e : Error) : Units :=
  { units with ctx := units.ctx.addError e }

/-! ## `std::string` operations used by `parseStringLiteral` -/

/-- Whether `pat` occurs at the start of `s`. -/
def startsWith : List Char → List Char → Bool
  | [], _ => true
  | _ :: _, [] => false
  | p :: ps, c :: cs => p == c && startsWith ps cs

/-- Search of `pat` in `s`, whose first byte has index `i`. -/
def findFrom (pat : List Char) : List Char → Nat → Option Nat
  | [], i => if startsWith pat [] then some i else none
  | c :: cs, i =>
    if startsWith pat (c :: cs) then some i else findFrom pat cs (i + 1)

/-- `std::string::find(pat, pos)`: the least index `≥ pos` at which `pat`
occurs, `none` for `npos`. -/
def find (value pat : List Char) (pos : Nat) : Option Nat :=
  if pos ≤ value.length then findFrom pat (value.drop pos) pos else none

/-- `std::string::replace(pos, n, str)`. -/
def replace (value : List Char) (pos n : Nat) (str : List Char) : List Char :=
  value.take pos ++ str ++ value.drop (pos + n)

/-- The loop `while ((pos = value.find(bsn, pos)) != npos) value.replace(pos, 2, nl);`
of `parseStringLiteral`, where `bsn` is the two bytes backslash, `n` and `nl`
the newline byte, run for at most `fuel` evaluations of its condition. -/
def escapeLoop : Nat → List Char → Nat → Option (List Char)
  | 0, _, _ => none
  | fuel + 1, value, pos =>
    match find value ['\\', 'n'] pos with
    | none => some value
    | some p => escapeLoop fuel (replace value p 2 ['\n']) p

/-! ## `parseStringLiteral` -/

/-- What `parseStringLiteral` leaves behind: the returned constant (`null`
for `NULL`), the content of `*size`, and the unit state. -/
structure StringLiteralResult where
  ret : Value
  size : Nat
  units : Units
  deriving DecidableEq, Repr

/-- The expression computing `underlying_type`. -/
def underlying_type (type : DType) : BaseType :=
  if type.base_type == BaseType.None && type.points_to.isNonNull then
    type.points_to.base_type
  else if type.is_array then type.array_type.base_type
  else BaseType.None

/-- `parseStringLiteral(units, type, node, size)`; `size` is the content of
`*size` on entry. -/
def parseStringLiteral (nt : NativeTypes) (units : Units) (type : DType)
    (node : Node) (size : Nat) : Option StringLiteralResult :=
  if !node.is_token then
    some { ret := Value.null, size := size,
           units := units.addError (Error.new ErrorInst.UnexpectedElement node
             [ErrArg.text "atom".toList, ErrArg.text "literal".toList,
              ErrArg.text "list".toList]) }
  else
    match node.token, type with
    | none, _ => none
    | _, DType.null => none
    | some t, type =>
      if type.base_type == BaseType.Int then
        if t.type != TokenType.Int then
          some { ret := Value.null, size := size,
                 units := units.addError (Error.new ErrorInst.UnexpectedElement
                   node [ErrArg.text "integer".toList,
                         ErrArg.text "literal".toList,
                         ErrArg.text t.tokenType]) }
        else
          some { ret := Value.constIntOfText nt.native_int_size (c_str t.str_value),
                 size := size, units := units }
      else if underlying_type type == BaseType.Char then
        if t.type != TokenType.StringLiteral then
          some { ret := Value.null, size := size,
                 units := units.addError (Error.new ErrorInst.UnexpectedElement
                   node [ErrArg.text "string".toList,
                         ErrArg.text "literal".toList,
                         ErrArg.text t.tokenType]) }
        else
          match escapeLoop (t.str_value.length + 1) t.str_value 0 with
          | none => none
          | some value =>
            some { ret := Value.constString (c_str value ++ [NUL]),
                   size := value.length + 1, units := units }
      else
        some { ret := Value.null, size := size,
               units := units.addError (Error.new ErrorInst.CannotParseLiteral
                 node [ErrArg.type type]) }

/-! ## The literal parsers -/

/-- The three assignments of `ParseResult::set(block, type, value)`; the
other fields keep what they held. -/
def ParseResult.set (pr : ParseResult) (block : BasicBlock) (type : DType)
    (value : Value) : ParseResult :=
  { pr with block := block.id, type := type, value := value }

/-- `parseFloatingPointLiteral(ctx, wanted_type, block, t, pr)`. -/
def parseFloatingPointLiteral (wanted_type : DType) (block : BasicBlock)
    (t : Token) (pr : ParseResult) : ParseResult :=
  if wanted_type.isNonNull && wanted_type.base_type == BaseType.Float then
    pr.set block type_float (Value.constFP FPKind.Float (c_str t.str_value))
  else if wanted_type.isNonNull && wanted_type.base_type == BaseType.Double then
    pr.set block type_double (Value.constFP FPKind.Double (c_str t.str_value))
  else if wanted_type.isNonNull
      && wanted_type.base_type == BaseType.LongDouble then
    pr.set block type_longdouble
      (Value.constFP FPKind.LongDouble (c_str t.str_value))
  else
    pr.set block type_float (Value.constFP FPKind.Float (c_str t.str_value))

/-- `parseIntegerLiteral(ctx, wanted_type, block, t, pr)`. -/
def parseIntegerLiteral (nt : NativeTypes) (wanted_type : DType)
    (block : BasicBlock) (t : Token) (pr : ParseResult) : ParseResult :=
  if wanted_type.isNonNull && wanted_type.isIntegerType then
    let int_size := nt.internalSizeToRealSize (nt.getIntegerSize wanted_type)
    pr.set block (getBasicType wanted_type.base_type)
      (Value.constIntOfText int_size (c_str t.str_value))
  else
    pr.set block type_int
      (Value.constIntOfText nt.native_int_size (c_str t.str_value))

/-- `parseBoolLiteral(ctx, block, node, pr)`, with `t = node->token`. -/
def parseBoolLiteral (block : BasicBlock) (t : Token) (pr : ParseResult) :
    ParseResult :=
  let is_true := t.str_value == "true".toList
  let is_false := t.str_value == "false".toList
  if is_true || is_false then
    pr.set block type_bool (Value.constInt 1 (if is_true then 1 else 0))
  else pr

/-- The byte a `char` holds. -/
def byteOf (c : Char) : Nat := c.toNat % 256

/-- The byte of `(char) EOF`, that is of -1. -/
def EOF_byte : Nat := 255

/-- `parseCharLiteral(ctx, block, node, pr)`, with `t = node->token`; the
context is returned with the diagnostic the function may add. -/
def parseCharLiteral (nt : NativeTypes) (ctx : Context) (block : BasicBlock)
    (node : Node) (t : Token) (pr : ParseResult) : Context × ParseResult :=
  if t.str_value.length ≥ 3 && t.str_value.get? 0 == some '#'
      && t.str_value.get? 1 == some '\\' then
    let value := (c_str t.str_value).drop 2
    let done := fun (c : Nat) =>
      (ctx, pr.set block type_char (Value.constInt nt.native_char_size c))
    if value == "NULL".toList then done 0
    else if value == "TAB".toList then done 9
    else if value == "SPACE".toList then done 32
    else if value == "NEWLINE".toList then done 10
    else if value == "CARRIAGE".toList then done 13
    else if value == "EOF".toList then done EOF_byte
    else
      match value with
      | [c] => done (byteOf c)
      | _ =>
        (ctx.addError (Error.new ErrorInst.InvalidChar node [ErrArg.text value]),
         pr)
  else (ctx, pr)

/-! ## Unit state used by `FormProcTokenParse` -/

/-- Modelled from the spec: `ErrorReporter::getErrorTypeCount(ErrorType::Error)`,
the checkpoint of the log: the marker it returns is the number of diagnostics
logged so far. -/
def getErrorTypeCount (er : List Error) (_ : ErrorType) : Nat :=
  er.length

/-- Modelled from the spec: `ErrorReporter::popErrors(marker)`, the rollback,
which truncates the log to the marker. -/
def popErrors (er : List Error) (marker : Nat) : List Error :=
  er.take marker

/-- Modelled from the spec: `Context::getEnum(name)` and
`Context::getStruct(name)`, lookups in the registries. -/
def getEnum (ctx : Context) (name : List Char) : Option Enum :=
  ctx.enums.find? (fun e => e.name == name)

def getStruct (ctx : Context) (name : List Char) : Option Struct :=
  ctx.structs.find? (fun e => e.name == name)

/-- Modelled from the spec: `Context::getVariable(name)`, the lookup in the
active scope chain, innermost first. -/
def getVariable (ctx : Context) (name : List Char) : Option Variable :=
  (ctx.ns :: ctx.outer).findSome? (fun sc => sc.find? (fun v => v.name == name))

/-- Modelled from the spec: `Namespace::addVariable(name, var)` on the active
scope `ns`; `none` when the name is already bound there. -/
def addVariable (ctx : Context) (name : List Char) (var : Variable) :
    Option Context :=
  if ctx.ns.any (fun v => v.name == name) then none
  else some { ctx with ns := var :: ctx.ns }

/-- Modelled from the spec: `Unit::getUnusedVarname`, the unit-scoped
monotonic name generator: the name of the current counter value, and the
counter advanced by one. -/
def getUnusedVarname (units : Units) : List Char × Units :=
  ("_dv".toList ++ (Nat.repr units.var_count).toList,
   { units with var_count := units.var_count + 1 })

/-- `Module::getOrInsertGlobal(name, type)`: the module with a fresh global of
that name unless one exists. -/
def getOrInsertGlobal (module : List GlobalVariable) (name : List Char)
    (type : DType) : List GlobalVariable :=
  if module.any (fun g => g.name == name) then module
  else module ++ [{ name := name, type := type, linkage := none,
                    initializer := Value.null, constant := false }]

/-- The three setters `setLinkage`, `setInitializer`, `setConstant(true)`
applied to the global named `name`. -/
def setGlobal (module : List GlobalVariable) (name : List Char)
    (linkage : Linkage) (init : Value) : List GlobalVariable :=
  module.map (fun g =>
    if g.name == name then
      { g with linkage := some linkage, initializer := init, constant := true }
    else g)

/-- What an enum-literal attempt leaves behind: its verdict, the diagnostics
and the instructions it appended, and the `ParseResult` it wrote. -/
structure EnumAttempt where
  res : Bool
  errors : List Error
  insts : List Value
  pr : ParseResult

/-- The collaborators whose bodies are outside the translated file, taken as
parameters: the platform, `Context::toLLVMType` (whether it returns a type,
and the diagnostics it reports), and `FormLiteralEnumParse`. -/
structure Env where
  nt : NativeTypes
  toLLVMType : Context → DType → Bool × List Error
  FormLiteralEnumParse : Units → BasicBlock → Node → Enum → DType → Struct →
    Bool → ParseResult → EnumAttempt

/-- What a call of `FormProcTokenParse` leaves behind: the returned flag, the
unit state, the block and the `ParseResult`. -/
structure ParseOutcome where
  ret : Bool
  units : Units
  block : BasicBlock
  pr : ParseResult
  deriving DecidableEq, Repr

/-! ## `FormProcTokenParse` -/

/-- The zero index `nt->getLLVMZero()` of `two_zero_indices`. -/
def getLLVMZero : Nat := 0

/-- The part of `FormProcTokenParse` under its comment `Variables.`, down to
the end of the identifier case: lookup of the name, then the result by
address, for an array, or by load; with `t = node->token`. -/
def variableCase (units : Units) (block : BasicBlock) (node : Node)
    (t : Token) (get_address : Bool) (pr : ParseResult) : ParseOutcome :=
  match getVariable units.ctx (c_str t.str_value) with
  | none =>
    { ret := false,
      units := units.addError (Error.new ErrorInst.VariableNotInScope
        node [ErrArg.text (c_str t.str_value)]),
      block := block, pr := pr }
  | some var =>
    if get_address then
      { ret := true, units := units, block := block,
        pr := pr.set block (getPointerType var.type) var.value }
    else if var.type.is_array then
      let ptr_to_array := Value.gep var.value getLLVMZero getLLVMZero
      let block := { block with insts := block.insts ++ [ptr_to_array] }
      let pr := pr.set block (getPointerType var.type.array_type)
        ptr_to_array
      { ret := true, units := units, block := block,
        pr := { pr with
          address_of_value := var.value
          value_is_lvalue := true
          type_of_address_of_value := getPointerType var.type } }
    else
      let loaded := Value.load var.value
      let block := { block with insts := block.insts ++ [loaded] }
      let pr := pr.set block var.type loaded
      { ret := true, units := units, block := block,
        pr := { pr with
          address_of_value := var.value
          value_is_lvalue := true } }

/-- The second half of `FormProcTokenParse`, from `if (t->type ==
TokenType::String)` to its end: the identifier, string-literal and remaining
categories, with `t = node->token`. -/
def tokenCases (env : Env) (units : Units) (block : BasicBlock) (node : Node)
    (t : Token) (get_address : Bool) (pr : ParseResult) : Option ParseOutcome :=
  let type_cchar := getConstType type_char
  let type_pcchar := getPointerType type_cchar
  if t.type == TokenType.String then
    let pr := { pr with value := Value.null }
    let pr := parseBoolLiteral block t pr
    if pr.value.isNonNull then
      some { ret := true, units := units, block := block, pr := pr }
    else
      let (ctx, pr) := parseCharLiteral env.nt units.ctx block node t pr
      let units := { units with ctx := ctx }
      if pr.value.isNonNull then
        some { ret := true, units := units, block := block, pr := pr }
      else
        some (variableCase units block node t get_address pr)
  else if t.type == TokenType.StringLiteral then
    match parseStringLiteral env.nt units type_pcchar node 0 with
    | none => none
    | some r =>
      let units := r.units
      let size := r.size
      let init := r.ret
      if !init.isNonNull then
        some { ret := false, units := units, block := block, pr := pr }
      else
        let str_type_sized := getArrayType (getConstType type_char) size
        let (llvm_type, errs) := env.toLLVMType units.ctx str_type_sized
        let units := { units with ctx := { units.ctx with er := units.ctx.er ++ errs } }
        if !llvm_type then
          some { ret := false, units := units, block := block, pr := pr }
        else
          let (varname, units) := getUnusedVarname units
          let module := getOrInsertGlobal units.module (c_str varname)
            str_type_sized
          let module := setGlobal module (c_str varname) Linkage.Intern init
          let units := { units with module := module }
          let var : Variable :=
            { name := c_str varname, internal_name := varname,
              type := str_type_sized, value := Value.global (c_str varname),
              linkage := Linkage.Intern }
          match addVariable units.ctx (c_str varname) var with
          | none =>
            some { ret := false,
                   units := units.addError
                     (Error.new ErrorInst.RedefinitionOfVariable node
                       [ErrArg.text (c_str varname)]),
                   block := block, pr := pr }
          | some ctx =>
            let units := { units with ctx := ctx }
            let char_ptr := Value.gep var.value getLLVMZero getLLVMZero
            let block := { block with insts := block.insts ++ [char_ptr] }
            some { ret := true, units := units, block := block,
                   pr := pr.set block type_pcchar char_ptr }
  else
    some { ret := false,
           units := units.addError (Error.new ErrorInst.UnableToParseForm node []),
           block := block, pr := pr }

/-- `FormProcTokenParse(units, fn, block, node, get_address,
prefixed_with_core, wanted_type, pr)`. The parameter `fn` is not read and is
left out; `wanted_type` is `DType.null` when no hint is given. -/
def FormProcTokenParse (env : Env) (units : Units) (block : BasicBlock)
    (node : Node) (get_address : Bool) (prefixed_with_core : Bool)
    (wanted_type : DType) (pr : ParseResult) : Option ParseOutcome :=
  match node.token with
  | none => none
  | some t =>
    if t.type == TokenType.Int then
      some { ret := true, units := units, block := block,
             pr := parseIntegerLiteral env.nt wanted_type block t pr }
    else if t.type == TokenType.FloatingPoint then
      some { ret := true, units := units, block := block,
             pr := parseFloatingPointLiteral wanted_type block t pr }
    else if wanted_type.isNonNull && wanted_type.struct_name.length != 0 then
      match getEnum units.ctx (c_str wanted_type.struct_name) with
      | none => tokenCases env units block node t get_address pr
      | some enum_obj =>
        match getStruct units.ctx (c_str wanted_type.struct_name) with
        | none => none
        | some st =>
          let error_count_begin :=
            getErrorTypeCount units.ctx.er ErrorType.Error
          let a := env.FormLiteralEnumParse units block node enum_obj
            wanted_type st get_address pr
          let units := { units with
            ctx := { units.ctx with er := units.ctx.er ++ a.errors } }
          let block := { block with insts := block.insts ++ a.insts }
          if a.res then
            some { ret := true, units := units, block := block, pr := a.pr }
          else
            let units := { units with
              ctx := { units.ctx with
                er := popErrors units.ctx.er error_count_begin } }
            tokenCases env units block node t get_address a.pr
    else tokenCases env units block node t get_address pr

/-! ## The translation of a string literal, in the specification's words -/

/-- The text with every left-to-right, non-overlapping occurrence of the two
bytes backslash, `n` replaced by one newline byte. -/
def translateSpec : List Char → List Char
  | [] => []
  | [c] => [c]
  | c :: d :: rest =>
    if c = '\\' ∧ d = 'n' then '\n' :: translateSpec rest
    else c :: translateSpec (d :: rest)

/-- The number of left-to-right, non-overlapping occurrences of backslash,
`n` in a text. -/
def countEscapes : List Char → Nat
  | [] => 0
  | [_] => 0
  | c :: d :: rest =>
    if c = '\\' ∧ d = 'n' then countEscapes rest + 1
    else countEscapes (d :: rest)

/-- Whether a text holds no NUL byte, as every C string does. -/
def nulFree (s : List Char) : Bool :=
  s.all (fun c => c != NUL)

/-- The char-like target types: pointer to a char type, array of a char
type. -/
def CharLike (type : DType) : Prop :=
  (∃ e, e.base_type = BaseType.Char ∧ type = getPointerType e) ∨
  (∃ e n, e.base_type = BaseType.Char ∧ type = getArrayType e n)

/-- The test by which `parseStringLiteral` takes a target type for char-like:
the type is not `int`, and its `underlying_type`, the base type of what a
pointer type points to or of the elements of an array type, is `char`. -/
def charLikeTarget (type : DType) : Bool :=
  type.isNonNull && type.base_type != BaseType.Int
    && underlying_type type == BaseType.Char

/-- The atom node of a token. -/
def atom (type : TokenType) (text : List Char) : Node :=
  { is_token := true, token := some { type := type, str_value := text } }

/-! ## Sample inputs -/

/-- A platform with 32-bit `int` and 8-bit `char`. -/
def sampleNT : NativeTypes :=
  { native_int_size := 32, native_char_size := 8,
    internalSizeToRealSize := fun n => n,
    getIntegerSize := fun t =>
      match t.base_type with
      | BaseType.Char | BaseType.Int8 | BaseType.UInt8 => 8
      | BaseType.Int16 | BaseType.UInt16 => 16
      | BaseType.Int64 | BaseType.UInt64 => 64
      | BaseType.Int128 | BaseType.UInt128 => 128
      | _ => 32 }

/-- A unit with an empty log, no variable, no enum, an empty module. -/
def emptyUnits : Units :=
  { ctx := { er := [], ns := [], outer := [], enums := [], structs := [] },
    module := [], var_count := 0 }

/-- A fresh `ParseResult`, as its constructor leaves it. -/
def freshPR : ParseResult :=
  { block := 0, type := DType.null, value := Value.null,
    address_of_value := Value.null, type_of_address_of_value := DType.null,
    value_is_lvalue := false }

def emptyBlock : BasicBlock := { id := 1, insts := [] }

/-- A unit whose active namespace holds `x : int` and `arr : int[4]`. -/
def scopeUnits : Units :=
  { emptyUnits with
    ctx := { emptyUnits.ctx with
      ns := [{ name := "x".toList, internal_name := "x".toList,
               type := type_int, value := Value.storage 0,
               linkage := Linkage.Auto },
             { name := "arr".toList, internal_name := "arr".toList,
               type := getArrayType type_int 4, value := Value.storage 1,
               linkage := Linkage.Auto }] } }

/-- A unit whose active namespace holds a variable named `true` and one
named `#`, backslash, `ab`. -/
def oddScopeUnits : Units :=
  { emptyUnits with
    ctx := { emptyUnits.ctx with
      ns := [{ name := "true".toList, internal_name := "true".toList,
               type := type_int, value := Value.storage 2,
               linkage := Linkage.Auto },
             { name := "#\\ab".toList, internal_name := "#\\ab".toList,
               type := type_int, value := Value.storage 3,
               linkage := Linkage.Auto }] } }

/-- A list node: not a token, no token attached. -/
def listNode : Node := { is_token := false, token := none }

/-- A struct-named wanted type, as an enum type is. -/
def enumType : DType :=
  DType.mk BaseType.None false DType.null false DType.null 0 "E".toList

/-- Two diagnostics of kinds this code does not create. -/
def sampleOther : Error :=
  Error.new (ErrorInst.Other 1) (atom TokenType.String "w".toList) []

def sampleError : Error :=
  Error.new (ErrorInst.Other 2) (atom TokenType.String "e".toList) []

/-- A unit with the enum `E` registered and the given log. -/
def enumUnits (er : List Error) : Units :=
  { ctx := { er := er, ns := [], outer := [],
             enums := [{ name := "E".toList }],
             structs := [{ name := "E".toList }] },
    module := [], var_count := 0 }

/-- An environment in which `toLLVMType` succeeds silently and every
enum-literal attempt fails with one diagnostic. -/
def sampleEnv : Env :=
  { nt := sampleNT,
    toLLVMType := fun _ _ => (true, []),
    FormLiteralEnumParse := fun _ _ node _ _ _ _ pr =>
      { res := false,
        errors := [Error.new (ErrorInst.Other 0) node []],
        insts := [], pr := pr } }

/-- The documented byte of a character literal, by the text after the two
bytes `#` and backslash: the six names, or one single character. -/
def charLiteralByteSpec (rest : List Char) : Option Nat :=
  if rest = "NULL".toList then some 0
  else if rest = "TAB".toList then some 9
  else if rest = "SPACE".toList then some 32
  else if rest = "NEWLINE".toList then some 10
  else if rest = "CARRIAGE".toList then some 13
  else if rest = "EOF".toList then some 255
  else match rest with
    | [x] => some (x.toNat % 256)
    | _ => none

/-- Whether `FormProcTokenParse` makes no enum-literal attempt: no wanted
type, a wanted type without struct name, or one naming no registered enum. -/
def noEnumHint (units : Units) (wanted_type : DType) : Bool :=
  !(wanted_type.isNonNull && wanted_type.struct_name.length != 0
    && (getEnum units.ctx (c_str wanted_type.struct_name)).isSome)

/-- A `ParseResult` that carries no address: the three address fields as
the constructor leaves them. -/
def noAddress (p : ParseResult) : Prop :=
  p.address_of_value = Value.null ∧ p.type_of_address_of_value = DType.null
    ∧ p.value_is_lvalue = false

/-- Two `ParseResult`s with the same three address fields. -/
def sameAddress (p q : ParseResult) : Prop :=
  q.address_of_value = p.address_of_value
    ∧ q.type_of_address_of_value = p.type_of_address_of_value
    ∧ q.value_is_lvalue = p.value_is_lvalue

/-- The address fields of a successful result `q`, started from `p`: either
those of `p`, or those written for a variable found under `name` and
resolved by value, decayed if an array and loaded otherwise. -/
def SuccessShape (ctx : Context) (name : List Char) (get_address : Bool)
    (p q : ParseResult) : Prop :=
  sameAddress p q ∨
  ∃ var, getVariable ctx name = some var ∧ get_address = false
    ∧ q.address_of_value = var.value ∧ q.value_is_lvalue = true
    ∧ ((var.type.is_array = true
          ∧ q.type = getPointerType var.type.array_type
          ∧ q.type_of_address_of_value = getPointerType var.type)
       ∨ (var.type.is_array = false ∧ q.type = var.type
          ∧ q.type_of_address_of_value = p.type_of_address_of_value))

/-- The name under which a string literal resolved on `units` is
registered: the C string of the generated name. -/
def stringLiteralName (units : Units) : List Char :=
  c_str (getUnusedVarname units).1

/-- The type of the variable registered for a string literal: array of const
char, of the translated length plus one. -/
def stringLiteralType (text : List Char) : DType :=
  getArrayType (getConstType type_char) ((translateSpec text).length + 1)

/-- The initializer of the global registered for a string literal. -/
def stringLiteralInit (text : List Char) : Value :=
  Value.constString (c_str (translateSpec text) ++ [NUL])

/-- The variable registered for a string literal resolved on `units`. -/
def stringLiteralVar (units : Units) (text : List Char) : Variable :=
  { name := stringLiteralName units,
    internal_name := (getUnusedVarname units).1,
    type := stringLiteralType text,
    value := Value.global (stringLiteralName units),
    linkage := Linkage.Intern }

/-- The module after the global of a string literal resolved on `units` has
been fetched or inserted and set up. -/
def stringLiteralModule (units : Units) (text : List Char) :
    List GlobalVariable :=
  setGlobal
    (getOrInsertGlobal units.module (stringLiteralName units)
      (stringLiteralType text))
    (stringLiteralName units) Linkage.Intern (stringLiteralInit text)

/-- The number written by a list of decimal digits, most significant
first. -/
def decodeDigits (l : List Char) : Nat :=
  l.foldl (fun acc c => 10 * acc + (c.toNat - 48)) 0

/-- A unit whose active namespace already binds the name `_dv0`, the first
the generator gives. -/
def clashUnits : Units :=
  { emptyUnits with
    ctx := { emptyUnits.ctx with
      ns := [{ name := "_dv0".toList, internal_name := "_dv0".toList,
               type := type_int, value := Value.storage 4,
               linkage := Linkage.Auto }] } }

/-- The outcome of resolving the string literal `hi` on `units` from a fresh
`ParseResult` and an empty block, when it succeeds without diagnostic. -/
def hiOutcome (units : Units) : ParseOutcome :=
  { ret := true,
    units := { ctx := { units.ctx with
                 ns := stringLiteralVar units "hi".toList :: units.ctx.ns },
               module := stringLiteralModule units "hi".toList,
               var_count := units.var_count + 1 },
    block := { id := 1,
               insts := [Value.gep (Value.global (stringLiteralName units)) 0 0] },
    pr := { freshPR with
      block := 1, type := getPointerType (getConstType type_char),
      value := Value.gep (Value.global (stringLiteralName units)) 0 0 } }

/-- Whether an identifier text starts like a character literal (`#`,
backslash and at least one more byte) while its remainder, read as a C
string, is neither one of the six names nor one single character. -/
def rejectedCharLiteral (text : List Char) : Bool :=
  decide (text.length ≥ 3) && text.get? 0 == some '#'
    && text.get? 1 == some '\\'
    && (charLiteralByteSpec ((c_str text).drop 2)).isNone

/-! ## Properties of the escape loop -/

theorem startsWith_bsn_nil : startsWith ['\\', 'n'] [] = false := rfl

theorem startsWith_bsn_single (c : Char) : startsWith ['\\', 'n'] [c] = false := by
  simp [startsWith]

theorem startsWith_bsn_cons (c d : Char) (r : List Char) :
    startsWith ['\\', 'n'] (c :: d :: r) = decide (c = '\\' ∧ d = 'n') := by
  simp only [startsWith, Bool.and_true]
  rw [Bool.eq_iff_iff]
  simp only [Bool.and_eq_true, beq_iff_eq, decide_eq_true_eq]
  constructor
  · rintro ⟨h1, h2⟩; exact ⟨h1.symm, h2.symm⟩
  · rintro ⟨h1, h2⟩; exact ⟨h1.symm, h2.symm⟩

/-- The search either finds nothing, and then the text has no escape, or
stops at the first escape. -/
theorem findFrom_spec (rest : List Char) : ∀ i : Nat,
    (findFrom ['\\', 'n'] rest i = none ∧ translateSpec rest = rest) ∨
    (∃ a b, rest = a ++ '\\' :: 'n' :: b ∧
      findFrom ['\\', 'n'] rest i = some (i + a.length) ∧
      translateSpec rest = a ++ '\n' :: translateSpec b) := by
  induction rest with
  | nil => intro i; left; simp [findFrom, startsWith, translateSpec]
  | cons c cs ih =>
    intro i
    cases cs with
    | nil =>
      left
      simp [findFrom, startsWith_bsn_single, startsWith_bsn_nil, translateSpec]
    | cons d r =>
      by_cases h : c = '\\' ∧ d = 'n'
      · right
        refine ⟨[], r, ?_, ?_, ?_⟩
        · simp [h.1, h.2]
        · simp [findFrom, startsWith_bsn_cons, h]
        · simp [translateSpec, h]
      · rcases ih (i + 1) with ⟨h1, h2⟩ | ⟨a, b, h1, h2, h3⟩
        · left
          refine ⟨?_, ?_⟩
          · rw [findFrom, startsWith_bsn_cons]; simp [h, h1]
          · rw [translateSpec, if_neg h, h2]
        · right
          refine ⟨c :: a, b, ?_, ?_, ?_⟩
          · simp [h1]
          · rw [findFrom, startsWith_bsn_cons]
            simp only [h, decide_False, Bool.false_eq_true, if_false, h2,
              List.length_cons]
            congr 1; omega
          · rw [translateSpec, if_neg h, h3]; simp

theorem find_append (pre rest : List Char) :
    find (pre ++ rest) ['\\', 'n'] pre.length
      = findFrom ['\\', 'n'] rest pre.length := by
  simp [find]

theorem replace_at (pre b : List Char) :
    replace (pre ++ '\\' :: 'n' :: b) pre.length 2 ['\n'] = pre ++ '\n' :: b := by
  simp [replace, List.take_append_eq_append_take, List.drop_append_eq_append_drop]

/-- With more fuel than bytes left to scan, the loop ends, having translated
what was left and kept what was before `pos`. -/
theorem escapeLoop_append : ∀ (n : Nat) (rest pre : List Char) (fuel : Nat),
    rest.length = n → n < fuel →
    escapeLoop fuel (pre ++ rest) pre.length = some (pre ++ translateSpec rest) := by
  intro n
  induction n using Nat.strong_induction_on with
  | _ n ih =>
    intro rest pre fuel hlen hfuel
    cases fuel with
    | zero => omega
    | succ fuel =>
      rw [escapeLoop, find_append]
      rcases findFrom_spec rest pre.length with ⟨h1, h2⟩ | ⟨a, b, h1, h2, h3⟩
      · rw [h1, h2]
      · rw [h2, h3]
        have hlen2 : rest.length = a.length + (b.length + 2) := by
          rw [h1]; simp
        have e1 : pre ++ rest = (pre ++ a) ++ '\\' :: 'n' :: b := by
          rw [h1]; simp
        have e2 : pre.length + a.length = (pre ++ a).length := by simp
        simp only []
        rw [e1, e2, replace_at]
        have := ih (b.length + 1) (by omega) ('\n' :: b) (pre ++ a) fuel
          (by simp) (by omega)
        rw [this]
        have e3 : translateSpec ('\n' :: b) = '\n' :: translateSpec b := by
          cases b with
          | nil => rfl
          | cons d r =>
            have hne : ¬ (('\n' : Char) = '\\' ∧ d = 'n') :=
              fun h => absurd h.1 (by decide)
            rw [translateSpec, if_neg hne]
        rw [e3]; simp

/-- The escape loop of `parseStringLiteral` ends within the fuel it is given
and computes the translation. -/
theorem escapeLoop_eq (s : List Char) :
    escapeLoop (s.length + 1) s 0 = some (translateSpec s) := by
  have := escapeLoop_append s.length s [] (s.length + 1) rfl (by omega)
  simpa using this

theorem translateSpec_length (s : List Char) :
    (translateSpec s).length + countEscapes s = s.length := by
  induction s using translateSpec.induct with
  | case1 => rfl
  | case2 c => rfl
  | case3 c d rest h ih =>
    rw [translateSpec, countEscapes, if_pos h, if_pos h]
    simp only [List.length_cons]; omega
  | case4 c d rest h ih =>
    rw [translateSpec, countEscapes, if_neg h, if_neg h]
    simp only [List.length_cons] at ih ⊢; omega

theorem translateSpec_nulFree (s : List Char) (h : nulFree s = true) :
    nulFree (translateSpec s) = true := by
  induction s using translateSpec.induct with
  | case1 => rfl
  | case2 c => exact h
  | case3 c d rest hc ih =>
    rw [translateSpec, if_pos hc]
    simp only [nulFree, List.all_cons, Bool.and_eq_true] at h ih ⊢
    exact ⟨by decide, ih h.2.2⟩
  | case4 c d rest hc ih =>
    rw [translateSpec, if_neg hc]
    simp only [nulFree, List.all_cons, Bool.and_eq_true] at h ih ⊢
    exact ⟨h.1, ih h.2⟩

theorem c_str_of_nulFree (s : List Char) (h : nulFree s = true) : c_str s = s := by
  induction s with
  | nil => rfl
  | cons c cs ih =>
    simp only [nulFree, List.all_cons, Bool.and_eq_true] at h
    simp only [c_str, List.takeWhile_cons, h.1, if_true]
    congr 1
    exact ih h.2

/-! ## C1: translation of a string literal -/

theorem underlying_type_of_CharLike (type : DType) (h : CharLike type) :
    type.base_type = BaseType.None ∧ underlying_type type = BaseType.Char := by
  rcases h with ⟨e, he, rfl⟩ | ⟨e, n, he, rfl⟩
  · cases e with
    | null => simp [DType.base_type] at he
    | mk b c p a t n s =>
      simp only [DType.base_type] at he
      subst he
      exact ⟨rfl, rfl⟩
  · cases e with
    | null => simp [DType.base_type] at he
    | mk b c p a t n s =>
      simp only [DType.base_type] at he
      subst he
      exact ⟨rfl, rfl⟩

theorem charLikeTarget_of_CharLike (type : DType) (h : CharLike type) :
    charLikeTarget type = true := by
  obtain ⟨hb, hu⟩ := underlying_type_of_CharLike type h
  have hnn : type.isNonNull = true := by
    rcases h with ⟨e, _, rfl⟩ | ⟨e, n, _, rfl⟩ <;> rfl
  simp [charLikeTarget, hnn, hb, hu]

/-- C1, amended. For every string-literal token text `s` and every target
type the code takes for char-like (among them every pointer to a char type
and every array of a char type), `parseStringLiteral` succeeds and records
no diagnostic; the size it writes is the length of the translated text plus
one, which is the length of `s` minus the number of replaced escapes plus
one; the constant is built from the C string of the translated text, that is
its bytes before the first NUL, followed by one NUL; and for a text without
NUL byte these bytes are exactly `s` with every left-to-right,
non-overlapping backslash-`n` replaced by a newline, followed by the
terminator. -/
theorem parseStringLiteral_translates (nt : NativeTypes) (units : Units)
    (type : DType) (s : List Char) (size : Nat)
    (htype : charLikeTarget type = true) :
    parseStringLiteral nt units type (atom TokenType.StringLiteral s) size
      = some { ret := Value.constString (c_str (translateSpec s) ++ [NUL]),
               size := (translateSpec s).length + 1, units := units }
    ∧ (translateSpec s).length + 1 = s.length - countEscapes s + 1
    ∧ (nulFree s = true →
        c_str (translateSpec s) ++ [NUL] = translateSpec s ++ [NUL]) := by
  simp only [charLikeTarget, Bool.and_eq_true, bne_iff_ne, ne_eq,
    beq_iff_eq] at htype
  obtain ⟨⟨hnn, hb⟩, hu⟩ := htype
  refine ⟨?_, ?_, ?_⟩
  · cases type with
    | null => simp [DType.isNonNull] at hnn
    | mk b c p a t n st =>
      simp only [parseStringLiteral, atom, hu, escapeLoop_eq]
      simp [hb]
  · have := translateSpec_length s
    omega
  · intro hs
    rw [c_str_of_nulFree _ (translateSpec_nulFree s hs)]

theorem parseStringLiteral_translates_witness :
    parseStringLiteral sampleNT emptyUnits
        (getPointerType (getConstType type_char))
        (atom TokenType.StringLiteral "a\\nb\\n".toList) 0
      = some { ret := Value.constString ['a', '\n', 'b', '\n', NUL],
               size := 5, units := emptyUnits }
    ∧ c_str (translateSpec "a\\nb\\n".toList) ++ [NUL]
      = ['a', '\n', 'b', '\n', NUL] :=
  ⟨(parseStringLiteral_translates sampleNT emptyUnits
      (getPointerType (getConstType type_char)) "a\\nb\\n".toList 0
      (by decide)).1,
   (parseStringLiteral_translates sampleNT emptyUnits
      (getPointerType (getConstType type_char)) "a\\nb\\n".toList 0
      (by decide)).2.2 (by decide)⟩

/-- C1, counterexample. For the text `a`, NUL, `b`, backslash, `n` and the
target pointer-to-const-char, `parseStringLiteral` writes the size 5, the
length of the translated text plus one, but hands over a constant of two
bytes, `a` and the terminator: not the translated text `a`, NUL, `b`,
newline followed by a terminator. -/
theorem parseStringLiteral_nul_truncates :
    parseStringLiteral sampleNT emptyUnits
        (getPointerType (getConstType type_char))
        (atom TokenType.StringLiteral ['a', NUL, 'b', '\\', 'n']) 0
      = some { ret := Value.constString ['a', NUL], size := 5,
               units := emptyUnits }
    ∧ translateSpec ['a', NUL, 'b', '\\', 'n'] ++ [NUL]
      = ['a', NUL, 'b', '\n', NUL]
    ∧ Value.constString ['a', NUL]
      ≠ Value.constString (translateSpec ['a', NUL, 'b', '\\', 'n'] ++ [NUL]) := by
  decide

/-! ## C2: character literals -/

theorem FormProcTokenParse_noEnumHint (env : Env) (units : Units)
    (block : BasicBlock) (type : TokenType) (text : List Char)
    (get_address core : Bool) (wanted_type : DType) (pr : ParseResult)
    (h1 : type ≠ TokenType.Int) (h2 : type ≠ TokenType.FloatingPoint)
    (hno : noEnumHint units wanted_type = true) :
    FormProcTokenParse env units block (atom type text) get_address core
        wanted_type pr
      = tokenCases env units block (atom type text)
          { type := type, str_value := text } get_address pr := by
  simp only [FormProcTokenParse, atom, beq_iff_eq, h1, h2, if_false]
  split
  · rename_i hw
    cases hg : getEnum units.ctx (c_str wanted_type.struct_name) with
    | none => rfl
    | some e =>
      simp only [noEnumHint, hw, hg, Option.isSome_some, Bool.and_self,
        Bool.not_true] at hno
      exact absurd hno (by decide)
  · rfl

theorem c_str_hash_backslash (rest : List Char) (h : nulFree rest = true) :
    (c_str ('#' :: '\\' :: rest)).drop 2 = rest := by
  have : nulFree ('#' :: '\\' :: rest) = true := by
    simp only [nulFree, List.all_cons, Bool.and_eq_true] at h ⊢
    exact ⟨by decide, by decide, h⟩
  rw [c_str_of_nulFree _ this]; rfl

theorem parseBoolLiteral_hash (block : BasicBlock) (rest : List Char)
    (pr : ParseResult) :
    parseBoolLiteral block { type := TokenType.String, str_value := '#' :: rest } pr
      = pr := by
  have e1 : ('#' :: rest == "true".toList) = false := by
    rw [show "true".toList = ['t', 'r', 'u', 'e'] from rfl]
    simp
  have e2 : ('#' :: rest == "false".toList) = false := by
    rw [show "false".toList = ['f', 'a', 'l', 's', 'e'] from rfl]
    simp
  simp [parseBoolLiteral, e1, e2]

theorem parseCharLiteral_byte (nt : NativeTypes) (ctx : Context)
    (block : BasicBlock) (node : Node) (rest : List Char) (b : Nat)
    (pr : ParseResult) (hb : charLiteralByteSpec rest = some b)
    (hnul : nulFree rest = true) :
    parseCharLiteral nt ctx block node
        { type := TokenType.String, str_value := '#' :: '\\' :: rest } pr
      = (ctx, pr.set block type_char (Value.constInt nt.native_char_size b)) := by
  have hlen : 1 ≤ rest.length := by
    cases rest with
    | nil => simp [charLiteralByteSpec] at hb
    | cons _ _ => simp
  have hguard : (decide (('#' :: '\\' :: rest).length ≥ 3)
      && ('#' :: '\\' :: rest).get? 0 == some '#'
      && ('#' :: '\\' :: rest).get? 1 == some '\\') = true := by
    simp; omega
  simp only [parseCharLiteral, hguard, if_true, c_str_hash_backslash rest hnul]
  simp only [charLiteralByteSpec] at hb
  simp only [beq_iff_eq, EOF_byte, byteOf]
  split_ifs at hb ⊢ <;> first
    | (simp only [Option.some.injEq] at hb; subst hb; rfl)
    | (split at hb
       · simp only [Option.some.injEq] at hb; subst hb; rfl
       · exact absurd hb (by simp))

theorem tokenCases_charLiteral (env : Env) (units : Units) (block : BasicBlock)
    (rest : List Char) (b : Nat) (get_address : Bool) (pr : ParseResult)
    (hb : charLiteralByteSpec rest = some b) (hnul : nulFree rest = true) :
    tokenCases env units block (atom TokenType.String ('#' :: '\\' :: rest))
        { type := TokenType.String, str_value := '#' :: '\\' :: rest }
        get_address pr
      = some { ret := true, units := units, block := block,
               pr := pr.set block type_char
                 (Value.constInt env.nt.native_char_size b) } := by
  simp only [tokenCases, beq_self_eq_true, if_true, parseBoolLiteral_hash,
    Value.isNonNull, Bool.false_eq_true, if_false,
    parseCharLiteral_byte env.nt units.ctx block _ rest b _ hb hnul,
    ParseResult.set]

/-- C2, amended. For an identifier token whose text is `#`, backslash and
then one of the names NULL, TAB, SPACE, NEWLINE, CARRIAGE, EOF or one single
character other than NUL, `parseCharLiteral` sets the result to a constant of the char type
holding the documented byte (0, 9, 32, 10, 13, 255, or the character itself)
and records no diagnostic; the generic cases of `FormProcTokenParse`, and the
whole of it when no enum-literal attempt is made, return success with that
result, the unit state untouched and whatever the scope holds. -/
theorem charLiteral_resolves (env : Env) (units : Units) (block : BasicBlock)
    (rest : List Char) (b : Nat) (get_address core : Bool)
    (wanted_type : DType) (pr : ParseResult)
    (hb : charLiteralByteSpec rest = some b) (hnul : nulFree rest = true) :
    parseCharLiteral env.nt units.ctx block
        (atom TokenType.String ('#' :: '\\' :: rest))
        { type := TokenType.String, str_value := '#' :: '\\' :: rest } pr
      = (units.ctx,
         pr.set block type_char (Value.constInt env.nt.native_char_size b))
    ∧ tokenCases env units block (atom TokenType.String ('#' :: '\\' :: rest))
        { type := TokenType.String, str_value := '#' :: '\\' :: rest }
        get_address pr
      = some { ret := true, units := units, block := block,
               pr := pr.set block type_char
                 (Value.constInt env.nt.native_char_size b) }
    ∧ (noEnumHint units wanted_type = true →
        FormProcTokenParse env units block
            (atom TokenType.String ('#' :: '\\' :: rest)) get_address core
            wanted_type pr
          = some { ret := true, units := units, block := block,
                   pr := pr.set block type_char
                     (Value.constInt env.nt.native_char_size b) }) := by
  refine ⟨parseCharLiteral_byte _ _ _ _ rest b _ hb hnul,
    tokenCases_charLiteral env units block rest b get_address pr hb hnul, ?_⟩
  intro hno
  rw [FormProcTokenParse_noEnumHint env units block _ _ get_address core
    wanted_type pr (by decide) (by decide) hno]
  exact tokenCases_charLiteral env units block rest b get_address pr hb hnul

theorem charLiteral_resolves_witness :
    FormProcTokenParse sampleEnv emptyUnits emptyBlock
        (atom TokenType.String "#\\EOF".toList) false false DType.null freshPR
      = some { ret := true, units := emptyUnits, block := emptyBlock,
               pr := { freshPR with block := 1, type := type_char,
                                    value := Value.constInt 8 255 } } :=
  (charLiteral_resolves sampleEnv emptyUnits emptyBlock "EOF".toList 255
    false false DType.null freshPR (by decide) (by decide)).2.2 (by decide)

/-- C2, counterexample. For the text `#`, backslash followed by the one
character NUL, `parseCharLiteral` sets no result and records `InvalidChar`:
the remainder, read as a C string, is empty. `FormProcTokenParse` then fails,
with `VariableNotInScope` recorded as well. -/
theorem charLiteral_nul_rejected :
    parseCharLiteral sampleNT emptyUnits.ctx emptyBlock
        (atom TokenType.String ['#', '\\', NUL])
        { type := TokenType.String, str_value := ['#', '\\', NUL] } freshPR
      = ({ emptyUnits.ctx with
            er := [Error.new ErrorInst.InvalidChar
                    (atom TokenType.String ['#', '\\', NUL])
                    [ErrArg.text []]] }, freshPR)
    ∧ (FormProcTokenParse sampleEnv emptyUnits emptyBlock
        (atom TokenType.String ['#', '\\', NUL]) false false DType.null
        freshPR).map
      (fun out => (out.ret, out.units.ctx.er.map (fun e => e.inst)))
      = some (false, [ErrorInst.InvalidChar, ErrorInst.VariableNotInScope]) := by
  decide

/-! ## C3: texts that start like a character literal but are none -/

theorem parseCharLiteral_invalid (nt : NativeTypes) (ctx : Context)
    (block : BasicBlock) (node : Node) (rest : List Char) (pr : ParseResult)
    (hlen : 2 ≤ rest.length) (hname : charLiteralByteSpec rest = none)
    (hnul : nulFree rest = true) :
    parseCharLiteral nt ctx block node
        { type := TokenType.String, str_value := '#' :: '\\' :: rest } pr
      = (ctx.addError (Error.new ErrorInst.InvalidChar node [ErrArg.text rest]),
         pr) := by
  have hguard : (decide (('#' :: '\\' :: rest).length ≥ 3)
      && ('#' :: '\\' :: rest).get? 0 == some '#'
      && ('#' :: '\\' :: rest).get? 1 == some '\\') = true := by
    simp; omega
  simp only [parseCharLiteral, hguard, if_true, c_str_hash_backslash rest hnul]
  simp only [charLiteralByteSpec] at hname
  simp only [beq_iff_eq]
  split_ifs at hname ⊢
  split at hname
  · exact absurd hname (by simp)
  · rfl

/-- C3, amended. For an identifier token whose text is `#`, backslash and a
NUL-free remainder of two or more characters that is none of the six names,
`parseCharLiteral` records exactly one `InvalidChar` diagnostic naming the
remainder and sets no result. The bare text `#`, backslash is shorter than
the three bytes the function asks for: it records nothing and sets nothing,
and `FormProcTokenParse`, making no enum-literal attempt, resolves the text
as a variable name, failing with `VariableNotInScope` when the scope has no
such variable. -/
theorem invalidCharLiteral (env : Env) (units : Units) (block : BasicBlock)
    (node : Node) (rest : List Char) (get_address core : Bool)
    (wanted_type : DType) (pr : ParseResult)
    (hlen : 2 ≤ rest.length) (hname : charLiteralByteSpec rest = none)
    (hnul : nulFree rest = true) :
    parseCharLiteral env.nt units.ctx block node
        { type := TokenType.String, str_value := '#' :: '\\' :: rest } pr
      = (units.ctx.addError
          (Error.new ErrorInst.InvalidChar node [ErrArg.text rest]), pr)
    ∧ parseCharLiteral env.nt units.ctx block node
        { type := TokenType.String, str_value := ['#', '\\'] } pr
      = (units.ctx, pr)
    ∧ (noEnumHint units wanted_type = true →
       getVariable units.ctx ['#', '\\'] = none →
        FormProcTokenParse env units block
            (atom TokenType.String ['#', '\\']) get_address core wanted_type pr
          = some { ret := false,
                   units := units.addError
                     (Error.new ErrorInst.VariableNotInScope
                       (atom TokenType.String ['#', '\\'])
                       [ErrArg.text ['#', '\\']]),
                   block := block,
                   pr := { pr with value := Value.null } }) := by
  refine ⟨parseCharLiteral_invalid _ _ _ _ rest pr hlen hname hnul, rfl, ?_⟩
  intro hno hvar
  rw [FormProcTokenParse_noEnumHint env units block _ _ get_address core
    wanted_type pr (by decide) (by decide) hno]
  have hc : c_str ['#', '\\'] = ['#', '\\'] := by decide
  have hbare : ∀ (n : Node) (p : ParseResult),
      parseCharLiteral env.nt units.ctx block n
        { type := TokenType.String, str_value := ['#', '\\'] } p
        = (units.ctx, p) := fun _ _ => rfl
  simp only [tokenCases, variableCase, beq_self_eq_true, if_true,
    parseBoolLiteral_hash, hbare, Value.isNonNull, Bool.false_eq_true,
    if_false, hc, hvar]

theorem invalidCharLiteral_witness :
    parseCharLiteral sampleNT emptyUnits.ctx emptyBlock
        (atom TokenType.String "#\\ab".toList)
        { type := TokenType.String, str_value := "#\\ab".toList } freshPR
      = ({ emptyUnits.ctx with
            er := [Error.new ErrorInst.InvalidChar
                    (atom TokenType.String "#\\ab".toList)
                    [ErrArg.text ['a', 'b']]] }, freshPR) :=
  (invalidCharLiteral sampleEnv emptyUnits emptyBlock
    (atom TokenType.String "#\\ab".toList) ['a', 'b'] false false DType.null
    freshPR (by decide) (by decide) (by decide)).1

/-- C3, counterexample. On the bare text `#`, backslash with an empty scope
`FormProcTokenParse` fails, but the one diagnostic it records is
`VariableNotInScope`, not `InvalidChar`. -/
theorem bareCharLiteral_not_InvalidChar :
    (FormProcTokenParse sampleEnv emptyUnits emptyBlock
        (atom TokenType.String ['#', '\\']) false false DType.null freshPR).map
      (fun out => (out.ret, out.units.ctx.er.map (fun e => e.inst)))
      = some (false, [ErrorInst.VariableNotInScope]) := by
  decide

/-! ## C4: variables, by address -/

theorem parseCharLiteral_noValue (nt : NativeTypes) (ctx : Context)
    (block : BasicBlock) (node : Node) (text : List Char) (pr : ParseResult)
    (hchar : ∀ rest, text = '#' :: '\\' :: rest → charLiteralByteSpec rest = none)
    (hnul : nulFree text = true) :
    parseCharLiteral nt ctx block node
        { type := TokenType.String, str_value := text } pr = (ctx, pr)
    ∨ ∃ rest, parseCharLiteral nt ctx block node
        { type := TokenType.String, str_value := text } pr
      = (ctx.addError (Error.new ErrorInst.InvalidChar node [ErrArg.text rest]),
         pr) := by
  by_cases hg : (decide (text.length ≥ 3) && text.get? 0 == some '#'
      && text.get? 1 == some '\\') = true
  · right
    match text, hchar, hnul, hg with
    | [], _, _, hg => simp at hg
    | [_], _, _, hg => simp at hg
    | [_, _], _, _, hg => simp at hg
    | a :: b :: c :: r, hchar, hnul, hg =>
      simp only [List.length_cons, List.get?_cons_zero, List.get?_cons_succ,
        Bool.and_eq_true, beq_iff_eq, Option.some.injEq] at hg
      obtain ⟨⟨_, ha⟩, hb⟩ := hg
      subst ha; subst hb
      have hn := hchar (c :: r) rfl
      have hnul2 : nulFree (c :: r) = true := by
        simp only [nulFree, List.all_cons, Bool.and_eq_true] at hnul ⊢
        exact hnul.2.2
      have hlen : 2 ≤ (c :: r).length := by
        cases r with
        | nil =>
          simp only [charLiteralByteSpec] at hn
          split_ifs at hn
        | cons _ _ => simp
      exact ⟨c :: r, parseCharLiteral_invalid nt ctx block node (c :: r) pr
        hlen hn hnul2⟩
  · left
    simp only [parseCharLiteral, hg, Bool.false_eq_true, if_false]

theorem parseBoolLiteral_other (block : BasicBlock) (text : List Char)
    (pr : ParseResult)
    (hbool : text ≠ "true".toList ∧ text ≠ "false".toList) :
    parseBoolLiteral block { type := TokenType.String, str_value := text } pr
      = pr := by
  have e1 : (text == "true".toList) = false := by simpa using hbool.1
  have e2 : (text == "false".toList) = false := by simpa using hbool.2
  simp only [parseBoolLiteral, e1, e2, Bool.or_self, Bool.false_eq_true, if_false]

theorem getVariable_er (ctx : Context) (er : List Error) (name : List Char) :
    getVariable { ctx with er := er } name = getVariable ctx name := rfl

/-- An identifier that is neither a boolean nor a character literal reaches
the variable lookup, with at most an `InvalidChar` diagnostic added on the
way. -/
theorem tokenCases_identifier (env : Env) (units : Units) (block : BasicBlock)
    (node : Node) (text : List Char) (get_address : Bool) (pr : ParseResult)
    (hbool : text ≠ "true".toList ∧ text ≠ "false".toList)
    (hchar : ∀ rest, text = '#' :: '\\' :: rest → charLiteralByteSpec rest = none)
    (hnul : nulFree text = true) :
    ∃ er, (er = units.ctx.er ∨ ∃ rest, er = units.ctx.er ++
            [Error.new ErrorInst.InvalidChar node [ErrArg.text rest]])
      ∧ tokenCases env units block node
          { type := TokenType.String, str_value := text } get_address pr
        = some (variableCase { units with ctx := { units.ctx with er := er } }
            block node { type := TokenType.String, str_value := text }
            get_address { pr with value := Value.null }) := by
  rcases parseCharLiteral_noValue env.nt units.ctx block node text
      { pr with value := Value.null } hchar hnul with h | ⟨rest, h⟩
  · refine ⟨units.ctx.er, Or.inl rfl, ?_⟩
    simp only [tokenCases, beq_self_eq_true, if_true,
      parseBoolLiteral_other block text _ hbool, h, Value.isNonNull,
      Bool.false_eq_true, if_false]
  · refine ⟨_, Or.inr ⟨rest, rfl⟩, ?_⟩
    simp only [tokenCases, beq_self_eq_true, if_true,
      parseBoolLiteral_other block text _ hbool, h, Value.isNonNull,
      Bool.false_eq_true, if_false]
    rfl

/-- C4. For an identifier token with a NUL-free text that is neither a
boolean literal nor a character literal, resolved without enum-literal
attempt, `FormProcTokenParse` returns; it fails exactly when the scope lookup
finds no variable of that name, and the diagnostic it then reports, the last
of the log, is `VariableNotInScope` for that name; when a variable is found
and `get_address` is set it succeeds with type pointer-to-declared-type, the
storage handle as value, and the block as it was: no instruction is
emitted. -/
theorem identifier_by_address (env : Env) (units : Units) (block : BasicBlock)
    (text : List Char) (get_address core : Bool) (wanted_type : DType)
    (pr : ParseResult)
    (hbool : text ≠ "true".toList ∧ text ≠ "false".toList)
    (hchar : ∀ rest, text = '#' :: '\\' :: rest → charLiteralByteSpec rest = none)
    (hnul : nulFree text = true)
    (hno : noEnumHint units wanted_type = true) :
    ∃ out, FormProcTokenParse env units block (atom TokenType.String text)
        get_address core wanted_type pr = some out
      ∧ (out.ret = false ↔ getVariable units.ctx text = none)
      ∧ (getVariable units.ctx text = none →
          out.units.ctx.er.getLast?
            = some (Error.new ErrorInst.VariableNotInScope
                (atom TokenType.String text) [ErrArg.text text])
          ∧ out.block = block)
      ∧ (∀ var, getVariable units.ctx text = some var → get_address = true →
          out.ret = true ∧ out.pr.type = getPointerType var.type
          ∧ out.pr.value = var.value ∧ out.block = block) := by
  obtain ⟨er, _, heq⟩ := tokenCases_identifier env units block
    (atom TokenType.String text) text get_address pr hbool hchar hnul
  rw [FormProcTokenParse_noEnumHint env units block _ _ get_address core
    wanted_type pr (by decide) (by decide) hno, heq]
  refine ⟨_, rfl, ?_⟩
  simp only [variableCase, c_str_of_nulFree text hnul, getVariable_er]
  cases hv : getVariable units.ctx text with
  | none =>
    refine ⟨by simp, ?_, ?_⟩
    · intro _
      exact ⟨by simp [Units.addError, Context.addError], rfl⟩
    · intro var h
      cases h
  | some var =>
    refine ⟨?_, ?_, ?_⟩
    · simp only [reduceCtorEq, iff_false, Bool.not_eq_false]
      cases get_address <;> cases var.type.is_array <;> rfl
    · intro h
      cases h
    · intro var2 h2 hga
      cases h2
      subst hga
      exact ⟨rfl, rfl, rfl, rfl⟩

theorem identifier_by_address_witness :
    ∃ out, FormProcTokenParse sampleEnv scopeUnits emptyBlock
        (atom TokenType.String "x".toList) true false DType.null freshPR
        = some out
      ∧ (out.ret = false ↔ getVariable scopeUnits.ctx "x".toList = none)
      ∧ (getVariable scopeUnits.ctx "x".toList = none →
          out.units.ctx.er.getLast?
            = some (Error.new ErrorInst.VariableNotInScope
                (atom TokenType.String "x".toList) [ErrArg.text "x".toList])
          ∧ out.block = emptyBlock)
      ∧ (∀ var, getVariable scopeUnits.ctx "x".toList = some var → true = true →
          out.ret = true ∧ out.pr.type = getPointerType var.type
          ∧ out.pr.value = var.value ∧ out.block = emptyBlock) :=
  identifier_by_address sampleEnv scopeUnits emptyBlock "x".toList true false
    DType.null freshPR (by decide) (by intro rest h; cases h) (by decide)
    (by decide)

/-! ## C5: array variables decay -/

/-- C5. For an identifier token (NUL-free, neither boolean nor character
literal, no enum-literal attempt) naming an in-scope variable whose declared
type is an array, `FormProcTokenParse` with `get_address` false succeeds,
appends exactly one instruction to the block, the address computation with
indices (0, 0) on the variable's storage, and no load; the result has type
pointer-to-element-type and that address as value, the undecayed storage
handle as `address_of_value`, pointer-to-array-type as
`type_of_address_of_value`, and `value_is_lvalue` set. -/
theorem array_variable_decays (env : Env) (units : Units) (block : BasicBlock)
    (text : List Char) (core : Bool) (wanted_type : DType) (pr : ParseResult)
    (var : Variable)
    (hbool : text ≠ "true".toList ∧ text ≠ "false".toList)
    (hchar : ∀ rest, text = '#' :: '\\' :: rest → charLiteralByteSpec rest = none)
    (hnul : nulFree text = true)
    (hno : noEnumHint units wanted_type = true)
    (hvar : getVariable units.ctx text = some var)
    (harr : var.type.is_array = true) :
    ∃ out, FormProcTokenParse env units block (atom TokenType.String text)
        false core wanted_type pr = some out
      ∧ out.ret = true
      ∧ out.block = { block with
          insts := block.insts ++ [Value.gep var.value 0 0] }
      ∧ out.pr.type = getPointerType var.type.array_type
      ∧ out.pr.value = Value.gep var.value 0 0
      ∧ out.pr.address_of_value = var.value
      ∧ out.pr.type_of_address_of_value = getPointerType var.type
      ∧ out.pr.value_is_lvalue = true := by
  obtain ⟨er, _, heq⟩ := tokenCases_identifier env units block
    (atom TokenType.String text) text false pr hbool hchar hnul
  rw [FormProcTokenParse_noEnumHint env units block _ _ false core
    wanted_type pr (by decide) (by decide) hno, heq]
  refine ⟨_, rfl, ?_⟩
  simp only [variableCase, c_str_of_nulFree text hnul, getVariable_er, hvar,
    harr, Bool.false_eq_true, if_false, if_true, getLLVMZero, ParseResult.set]
  refine ⟨?_, ?_, ?_, ?_, ?_, ?_, ?_⟩ <;> first | rfl | trivial

theorem array_variable_decays_witness :
    ∃ out, FormProcTokenParse sampleEnv scopeUnits emptyBlock
        (atom TokenType.String "arr".toList) false false DType.null freshPR
        = some out
      ∧ out.ret = true
      ∧ out.block = { emptyBlock with
          insts := emptyBlock.insts ++ [Value.gep (Value.storage 1) 0 0] }
      ∧ out.pr.type = getPointerType type_int
      ∧ out.pr.value = Value.gep (Value.storage 1) 0 0
      ∧ out.pr.address_of_value = Value.storage 1
      ∧ out.pr.type_of_address_of_value
          = getPointerType (getArrayType type_int 4)
      ∧ out.pr.value_is_lvalue = true :=
  array_variable_decays sampleEnv scopeUnits emptyBlock
    "arr".toList false DType.null freshPR
    { name := "arr".toList, internal_name := "arr".toList,
      type := getArrayType type_int 4, value := Value.storage 1,
      linkage := Linkage.Auto }
    (by decide) (by intro rest h; cases h) (by decide) (by decide)
    (by decide) (by decide)

/-! ## C6: integer literals -/

/-- C6, amended. For every integer token and every integer-like hint type
`H`, `FormProcTokenParse` succeeds, leaving units and block untouched, with
result type the basic type of `H`'s base type, which is `H` itself when `H`
is an unqualified basic type, and with the constant of the token's text at
the real size of `H`; with no hint, or a hint that is not integer-like, the
result is the native `int` type with the constant at the native integer
width. -/
theorem integer_literal (env : Env) (units : Units) (block : BasicBlock)
    (text : List Char) (get_address core : Bool) (H : DType)
    (pr : ParseResult) :
    ((H.isNonNull && H.isIntegerType) = true →
      FormProcTokenParse env units block (atom TokenType.Int text) get_address
          core H pr
        = some { ret := true, units := units, block := block,
                 pr := pr.set block (getBasicType H.base_type)
                   (Value.constIntOfText
                     (env.nt.internalSizeToRealSize (env.nt.getIntegerSize H))
                     (c_str text)) }
      ∧ (∀ b, H = getBasicType b → getBasicType H.base_type = H))
    ∧ ((H.isNonNull && H.isIntegerType) = false →
      FormProcTokenParse env units block (atom TokenType.Int text) get_address
          core H pr
        = some { ret := true, units := units, block := block,
                 pr := pr.set block type_int
                   (Value.constIntOfText env.nt.native_int_size
                     (c_str text)) }) := by
  refine ⟨fun h => ⟨?_, ?_⟩, fun h => ?_⟩
  · simp only [FormProcTokenParse, atom, beq_self_eq_true, if_true,
      parseIntegerLiteral, h]
  · rintro b rfl
    rfl
  · simp only [FormProcTokenParse, atom, beq_self_eq_true, if_true,
      parseIntegerLiteral, h, Bool.false_eq_true, if_false]

theorem integer_literal_witness :
    FormProcTokenParse sampleEnv emptyUnits emptyBlock
        (atom TokenType.Int "42".toList) false false
        (getBasicType BaseType.Int64) freshPR
      = some { ret := true, units := emptyUnits, block := emptyBlock,
               pr := { freshPR with
                 block := 1, type := getBasicType BaseType.Int64,
                 value := Value.constIntOfText 64 "42".toList } }
    ∧ FormProcTokenParse sampleEnv emptyUnits emptyBlock
        (atom TokenType.Int "42".toList) false false DType.null freshPR
      = some { ret := true, units := emptyUnits, block := emptyBlock,
               pr := { freshPR with
                 block := 1, type := type_int,
                 value := Value.constIntOfText 32 "42".toList } } :=
  ⟨((integer_literal sampleEnv emptyUnits emptyBlock "42".toList false false
      (getBasicType BaseType.Int64) freshPR).1 (by decide)).1,
   (integer_literal sampleEnv emptyUnits emptyBlock "42".toList false false
      DType.null freshPR).2 (by decide)⟩

/-- C6, counterexample. With the integer-like hint `const int` the result
type of an integer token is plain `int`, which is not the hint. -/
theorem integer_literal_const_hint :
    (getConstType type_int).isIntegerType = true
    ∧ (FormProcTokenParse sampleEnv emptyUnits emptyBlock
        (atom TokenType.Int "5".toList) false false (getConstType type_int)
        freshPR).map (fun out => out.pr.type) = some type_int
    ∧ type_int ≠ getConstType type_int := by
  decide

/-! ## C7: rollback of a failed enum-literal attempt -/

theorem popErrors_restores (er appended : List Error) :
    popErrors (er ++ appended) (getErrorTypeCount er ErrorType.Error) = er := by
  rw [getErrorTypeCount, popErrors, List.take_left]

/-- C7. When the wanted type names a registered enum and the enum-literal
attempt fails, the rollback to the checkpoint taken before the attempt
leaves the log with exactly the entries, hence the length, it had before the
attempt, whatever diagnostics the log held and whatever the attempt
appended; and resolution continues with the generic cases on the unit state
as it was, the block and the `ParseResult` as the attempt left them. -/
theorem enum_rollback (env : Env) (units : Units) (block : BasicBlock)
    (type : TokenType) (text : List Char) (get_address core : Bool)
    (wanted_type : DType) (pr : ParseResult) (enum_obj : Enum) (st : Struct)
    (h1 : type ≠ TokenType.Int) (h2 : type ≠ TokenType.FloatingPoint)
    (hw : (wanted_type.isNonNull && wanted_type.struct_name.length != 0) = true)
    (henum : getEnum units.ctx (c_str wanted_type.struct_name) = some enum_obj)
    (hst : getStruct units.ctx (c_str wanted_type.struct_name) = some st)
    (hfail : (env.FormLiteralEnumParse units block (atom type text) enum_obj
      wanted_type st get_address pr).res = false) :
    popErrors
        (units.ctx.er ++ (env.FormLiteralEnumParse units block (atom type text)
          enum_obj wanted_type st get_address pr).errors)
        (getErrorTypeCount units.ctx.er ErrorType.Error)
      = units.ctx.er
    ∧ FormProcTokenParse env units block (atom type text) get_address core
        wanted_type pr
      = tokenCases env units
          { block with insts := block.insts ++
              (env.FormLiteralEnumParse units block (atom type text) enum_obj
                wanted_type st get_address pr).insts }
          (atom type text) { type := type, str_value := text } get_address
          (env.FormLiteralEnumParse units block (atom type text) enum_obj
            wanted_type st get_address pr).pr := by
  refine ⟨popErrors_restores _ _, ?_⟩
  simp only [atom] at hfail ⊢
  simp only [FormProcTokenParse, beq_iff_eq, h1, h2, if_false, hw, if_true,
    henum, hst, hfail, Bool.false_eq_true, popErrors_restores _ _]

theorem enum_rollback_witness :
    popErrors
        ([sampleOther, sampleError]
          ++ [Error.new (ErrorInst.Other 0)
                (atom TokenType.String "#\\a".toList) []])
        (getErrorTypeCount [sampleOther, sampleError] ErrorType.Error)
      = [sampleOther, sampleError]
    ∧ FormProcTokenParse sampleEnv (enumUnits [sampleOther, sampleError])
        emptyBlock (atom TokenType.String "#\\a".toList) false false enumType
        freshPR
      = some { ret := true, units := enumUnits [sampleOther, sampleError],
               block := emptyBlock,
               pr := freshPR.set emptyBlock type_char (Value.constInt 8 97) } :=
  ⟨(enum_rollback sampleEnv (enumUnits [sampleOther, sampleError]) emptyBlock
      TokenType.String "#\\a".toList false false enumType freshPR
      { name := "E".toList } { name := "E".toList } (by decide) (by decide)
      (by decide) (by decide) (by decide) (by decide)).1,
   (enum_rollback sampleEnv (enumUnits [sampleOther, sampleError]) emptyBlock
      TokenType.String "#\\a".toList false false enumType freshPR
      { name := "E".toList } { name := "E".toList } (by decide) (by decide)
      (by decide) (by decide) (by decide) (by decide)).2.trans (by decide)⟩

/-! ## C8: diagnostics of a failing call -/

/-- C8, the code at the failing input. For the identifier `#`, backslash,
`ab`, with no hint, an empty scope and an empty log, `FormProcTokenParse`
fails and leaves two diagnostics, `InvalidChar` from `parseCharLiteral` and
`VariableNotInScope` from the variable lookup it goes on to. -/
theorem invalid_char_two_diagnostics :
    emptyUnits.ctx.er = []
    ∧ (FormProcTokenParse sampleEnv emptyUnits emptyBlock
        (atom TokenType.String "#\\ab".toList) false false DType.null
        freshPR).map
      (fun out => (out.ret, out.units.ctx.er.map (fun e => e.inst)))
      = some (false, [ErrorInst.InvalidChar, ErrorInst.VariableNotInScope]) := by
  decide

/-! ## C10: string literals and the wanted type -/

/-- C10, amended. `parseStringLiteral`, given an atom and a target type that
is neither `int` nor char-like, fails with one `CannotParseLiteral`
diagnostic naming that type, returns no constant and leaves `*size` alone.
`FormProcTokenParse` never hands it the wanted type, only
pointer-to-const-char: for a string-literal token, no enum-literal attempt
being made, its outcome is the one it has without any wanted type. -/
theorem stringLiteral_wanted_type (env : Env) (units : Units)
    (block : BasicBlock) (type : DType) (t : Token) (size : Nat)
    (text : List Char) (get_address core : Bool) (wanted_type : DType)
    (pr : ParseResult)
    (hnn : type.isNonNull = true)
    (hint : type.base_type ≠ BaseType.Int)
    (hchar : underlying_type type ≠ BaseType.Char)
    (hno : noEnumHint units wanted_type = true) :
    parseStringLiteral env.nt units type
        { is_token := true, token := some t } size
      = some { ret := Value.null, size := size,
               units := units.addError
                 (Error.new ErrorInst.CannotParseLiteral
                   { is_token := true, token := some t } [ErrArg.type type]) }
    ∧ FormProcTokenParse env units block (atom TokenType.StringLiteral text)
        get_address core wanted_type pr
      = FormProcTokenParse env units block (atom TokenType.StringLiteral text)
        get_address core DType.null pr := by
  constructor
  · cases type with
    | null => simp [DType.isNonNull] at hnn
    | mk b c p a ty n st =>
      simp only [parseStringLiteral, Bool.not_true, Bool.false_eq_true,
        if_false, beq_iff_eq, hint, hchar]
  · rw [FormProcTokenParse_noEnumHint env units block _ _ get_address core
      wanted_type pr (by decide) (by decide) hno,
      FormProcTokenParse_noEnumHint env units block _ _ get_address core
      DType.null pr (by decide) (by decide) rfl]

theorem stringLiteral_wanted_type_witness :
    parseStringLiteral sampleNT emptyUnits (getPointerType type_int)
        (atom TokenType.StringLiteral "hi".toList) 0
      = some { ret := Value.null, size := 0,
               units := emptyUnits.addError
                 (Error.new ErrorInst.CannotParseLiteral
                   (atom TokenType.StringLiteral "hi".toList)
                   [ErrArg.type (getPointerType type_int)]) } :=
  (stringLiteral_wanted_type sampleEnv emptyUnits emptyBlock
    (getPointerType type_int)
    { type := TokenType.StringLiteral, str_value := "hi".toList } 0
    "hi".toList false false type_int freshPR (by decide) (by decide)
    (by decide) (by decide)).1

/-- C10, counterexample. A string-literal token resolved with the wanted
type `int` succeeds: no diagnostic is recorded and one global is
registered. -/
theorem stringLiteral_int_hint_succeeds :
    (FormProcTokenParse sampleEnv emptyUnits emptyBlock
        (atom TokenType.StringLiteral "hi".toList) false false type_int
        freshPR).map
      (fun out => (out.ret, out.units.ctx.er, out.units.module.length))
      = some (true, [], 1) := by
  decide

/-! ## C9: the invariant of a value result -/

theorem sameAddress_set (p : ParseResult) (b : BasicBlock) (t : DType)
    (v : Value) : sameAddress p (p.set b t v) := ⟨rfl, rfl, rfl⟩

theorem sameAddress_trans (p q r : ParseResult) (h1 : sameAddress p q)
    (h2 : sameAddress q r) : sameAddress p r :=
  ⟨h2.1.trans h1.1, h2.2.1.trans h1.2.1, h2.2.2.trans h1.2.2⟩

theorem sameAddress_parseIntegerLiteral (nt : NativeTypes) (w : DType)
    (b : BasicBlock) (t : Token) (p : ParseResult) :
    sameAddress p (parseIntegerLiteral nt w b t p) := by
  unfold parseIntegerLiteral
  split <;> exact sameAddress_set _ _ _ _

theorem sameAddress_parseFloatingPointLiteral (w : DType) (b : BasicBlock)
    (t : Token) (p : ParseResult) :
    sameAddress p (parseFloatingPointLiteral w b t p) := by
  unfold parseFloatingPointLiteral
  split_ifs <;> exact sameAddress_set _ _ _ _

theorem sameAddress_parseBoolLiteral (b : BasicBlock) (t : Token)
    (p : ParseResult) : sameAddress p (parseBoolLiteral b t p) := by
  unfold parseBoolLiteral
  dsimp only
  split
  · exact sameAddress_set _ _ _ _
  · exact ⟨rfl, rfl, rfl⟩

theorem parseCharLiteral_frame (nt : NativeTypes) (ctx : Context)
    (b : BasicBlock) (node : Node) (t : Token) (p : ParseResult) :
    sameAddress p (parseCharLiteral nt ctx b node t p).2
    ∧ ∃ er, (parseCharLiteral nt ctx b node t p).1 = { ctx with er := er } := by
  unfold parseCharLiteral
  dsimp only
  split_ifs <;> first
    | exact ⟨sameAddress_set _ _ _ _, ctx.er, rfl⟩
    | exact ⟨⟨rfl, rfl, rfl⟩, ctx.er, rfl⟩
    | (split
       · exact ⟨sameAddress_set _ _ _ _, ctx.er, rfl⟩
       · exact ⟨⟨rfl, rfl, rfl⟩, _, rfl⟩)

theorem variableCase_shape (units : Units) (block : BasicBlock) (node : Node)
    (t : Token) (get_address : Bool) (pr : ParseResult)
    (hret : (variableCase units block node t get_address pr).ret = true) :
    SuccessShape units.ctx (c_str t.str_value) get_address pr
      (variableCase units block node t get_address pr).pr := by
  unfold variableCase at hret ⊢
  cases hv : getVariable units.ctx (c_str t.str_value) with
  | none => rw [hv] at hret; cases hret
  | some var =>
    simp only []
    cases get_address with
    | true => exact Or.inl (sameAddress_set _ _ _ _)
    | false =>
      right
      cases ha : var.type.is_array with
      | true =>
        exact ⟨var, hv, rfl, by simp [ha], by simp [ha],
          Or.inl ⟨ha, by simp [ha, ParseResult.set], by simp [ha]⟩⟩
      | false =>
        exact ⟨var, hv, rfl, by simp [ha], by simp [ha],
          Or.inr ⟨ha, by simp [ha, ParseResult.set],
            by simp [ha, ParseResult.set]⟩⟩

theorem SuccessShape_of_sameAddress (ctx ctx2 : Context) (er : List Error)
    (name : List Char) (ga : Bool) (p p2 q : ParseResult)
    (hctx : ctx2 = { ctx with er := er })
    (h1 : sameAddress p p2)
    (h2 : SuccessShape ctx2 name ga p2 q) :
    SuccessShape ctx name ga p q := by
  subst hctx
  rcases h2 with h2 | ⟨var, hv, hga, ha, hl, h3⟩
  · exact Or.inl (sameAddress_trans _ _ _ h1 h2)
  · refine Or.inr ⟨var, hv, hga, ha, hl, ?_⟩
    rcases h3 with h3 | ⟨h3, h4, h5⟩
    · exact Or.inl h3
    · exact Or.inr ⟨h3, h4, h5.trans h1.2.1⟩

theorem tokenCases_shape (env : Env) (units : Units) (block : BasicBlock)
    (node : Node) (t : Token) (get_address : Bool) (pr : ParseResult)
    (out : ParseOutcome)
    (h : tokenCases env units block node t get_address pr = some out)
    (hret : out.ret = true) :
    SuccessShape units.ctx (c_str t.str_value) get_address pr out.pr := by
  unfold tokenCases at h
  dsimp only at h
  have hb := sameAddress_parseBoolLiteral block t { pr with value := Value.null }
  have hb0 : sameAddress pr { pr with value := Value.null } := ⟨rfl, rfl, rfl⟩
  obtain ⟨hc, er, hctx⟩ := parseCharLiteral_frame env.nt units.ctx block node t
    (parseBoolLiteral block t { pr with value := Value.null })
  split at h
  · split at h
    · cases h
      exact Or.inl (sameAddress_trans _ _ _ hb0 hb)
    · split at h
      · cases h
        exact Or.inl (sameAddress_trans _ _ _ hb0 (sameAddress_trans _ _ _ hb hc))
      · cases h
        have := variableCase_shape _ block node t get_address _ hret
        exact SuccessShape_of_sameAddress units.ctx _ er _ _ _ _ _ hctx
          (sameAddress_trans _ _ _ hb0 (sameAddress_trans _ _ _ hb hc)) this
  · split at h
    · split at h
      · cases h
      · split at h
        · cases h; cases hret
        · split at h
          · cases h; cases hret
          · split at h
            · cases h; cases hret
            · cases h
              exact Or.inl (sameAddress_set _ _ _ _)
    · cases h; cases hret

theorem FormProcTokenParse_shape (env : Env) (units : Units)
    (block : BasicBlock) (type : TokenType) (text : List Char)
    (get_address core : Bool) (wanted_type : DType) (pr : ParseResult)
    (out : ParseOutcome)
    (hno : noEnumHint units wanted_type = true)
    (h : FormProcTokenParse env units block (atom type text) get_address core
      wanted_type pr = some out)
    (hret : out.ret = true) :
    SuccessShape units.ctx (c_str text) get_address pr out.pr := by
  by_cases h1 : type = TokenType.Int
  · subst h1
    simp only [FormProcTokenParse, atom, beq_self_eq_true, if_true,
      Option.some.injEq] at h
    subst h
    exact Or.inl (sameAddress_parseIntegerLiteral _ _ _ _ _)
  · by_cases h2 : type = TokenType.FloatingPoint
    · subst h2
      simp only [FormProcTokenParse, atom, beq_iff_eq, reduceCtorEq, if_false,
        if_true, Option.some.injEq] at h
      subst h
      exact Or.inl (sameAddress_parseFloatingPointLiteral _ _ _ _)
    · rw [FormProcTokenParse_noEnumHint env units block _ _ get_address core
        wanted_type pr h1 h2 hno] at h
      exact tokenCases_shape env units block _ _ get_address pr out h hret

theorem translateSpec_head (d : Char) (rest : List Char) :
    (∃ tl, translateSpec (d :: rest) = d :: tl)
    ∨ (d = '\\' ∧ ∃ tl, translateSpec (d :: rest) = '\n' :: tl) := by
  cases rest with
  | nil => exact Or.inl ⟨[], rfl⟩
  | cons e r =>
    by_cases h : d = '\\' ∧ e = 'n'
    · right
      exact ⟨h.1, translateSpec r, by rw [translateSpec, if_pos h]⟩
    · left
      exact ⟨translateSpec (e :: r), by rw [translateSpec, if_neg h]⟩

/-- The translated text holds no backslash followed by `n`. -/
theorem translateSpec_no_escape (s : List Char) :
    ∀ a b : List Char, translateSpec s ≠ a ++ '\\' :: 'n' :: b := by
  induction s using translateSpec.induct with
  | case1 =>
    intro a b h
    have := congrArg List.length h
    simp [translateSpec] at this
    omega
  | case2 c =>
    intro a b h
    have := congrArg List.length h
    simp [translateSpec] at this
    omega
  | case3 c d rest hc ih =>
    intro a b h
    rw [translateSpec, if_pos hc] at h
    cases a with
    | nil =>
      simp only [List.nil_append, List.cons.injEq] at h
      exact absurd h.1 (by decide)
    | cons x a2 =>
      simp only [List.cons_append, List.cons.injEq] at h
      exact ih a2 b h.2
  | case4 c d rest hc ih =>
    intro a b h
    rw [translateSpec, if_neg hc] at h
    cases a with
    | nil =>
      simp only [List.nil_append, List.cons.injEq] at h
      obtain ⟨h1, h2⟩ := h
      rcases translateSpec_head d rest with ⟨tl, e⟩ | ⟨hd, tl, e⟩
      · rw [e] at h2
        simp only [List.cons.injEq] at h2
        exact hc ⟨h1, h2.1⟩
      · rw [e] at h2
        simp only [List.cons.injEq] at h2
        exact absurd h2.1 (by decide)
    | cons x a2 =>
      simp only [List.cons_append, List.cons.injEq] at h
      exact ih a2 b h.2

theorem translateSpec_idem (s : List Char) :
    translateSpec (translateSpec s) = translateSpec s := by
  rcases findFrom_spec (translateSpec s) 0 with ⟨_, h⟩ | ⟨a, b, h, _, _⟩
  · exact h
  · exact absurd h (translateSpec_no_escape s a b)

/-- C17. For every text the escape loop of `parseStringLiteral`, given the
fuel of one round per byte and one more, ends with the translated text; that
text holds no backslash followed by `n`, the search for one in it finds
nothing; and the loop run on the translated text returns it unchanged. -/
theorem escapeLoop_ends_idempotent (s : List Char) :
    escapeLoop (s.length + 1) s 0 = some (translateSpec s)
    ∧ (∀ a b : List Char, translateSpec s ≠ a ++ '\\' :: 'n' :: b)
    ∧ find (translateSpec s) ['\\', 'n'] 0 = none
    ∧ escapeLoop ((translateSpec s).length + 1) (translateSpec s) 0
        = some (translateSpec s) := by
  refine ⟨escapeLoop_eq s, translateSpec_no_escape s, ?_, ?_⟩
  · have h := find_append [] (translateSpec s)
    simp only [List.nil_append, List.length_nil] at h
    rw [h]
    rcases findFrom_spec (translateSpec s) 0 with ⟨h1, _⟩ | ⟨a, b, h1, _, _⟩
    · exact h1
    · exact absurd h1 (translateSpec_no_escape s a b)
  · rw [escapeLoop_eq, translateSpec_idem]

/-! ## C12: floating-point literals -/

/-- C12. For every floating-point token `FormProcTokenParse` succeeds and
leaves the unit state, hence the diagnostic log, and the block untouched; the
result is the constant of the token's text of type `float` when the hint's
base type is float, `double` when it is double, `long double` when it is long
double, and `float` for every other hint and for no hint. -/
theorem floatingPoint_literal (env : Env) (units : Units) (block : BasicBlock)
    (text : List Char) (get_address core : Bool) (H : DType)
    (pr : ParseResult) :
    (H.base_type = BaseType.Float →
      FormProcTokenParse env units block (atom TokenType.FloatingPoint text)
          get_address core H pr
        = some { ret := true, units := units, block := block,
                 pr := pr.set block type_float
                   (Value.constFP FPKind.Float (c_str text)) })
    ∧ (H.base_type = BaseType.Double →
      FormProcTokenParse env units block (atom TokenType.FloatingPoint text)
          get_address core H pr
        = some { ret := true, units := units, block := block,
                 pr := pr.set block type_double
                   (Value.constFP FPKind.Double (c_str text)) })
    ∧ (H.base_type = BaseType.LongDouble →
      FormProcTokenParse env units block (atom TokenType.FloatingPoint text)
          get_address core H pr
        = some { ret := true, units := units, block := block,
                 pr := pr.set block type_longdouble
                   (Value.constFP FPKind.LongDouble (c_str text)) })
    ∧ (H.base_type ≠ BaseType.Float → H.base_type ≠ BaseType.Double →
        H.base_type ≠ BaseType.LongDouble →
      FormProcTokenParse env units block (atom TokenType.FloatingPoint text)
          get_address core H pr
        = some { ret := true, units := units, block := block,
                 pr := pr.set block type_float
                   (Value.constFP FPKind.Float (c_str text)) }) := by
  have hnn : ∀ b, H.base_type = b → b ≠ BaseType.None → H.isNonNull = true := by
    intro b hb hne
    cases H with
    | null => exact absurd hb.symm hne
    | mk _ _ _ _ _ _ _ => rfl
  refine ⟨fun h => ?_, fun h => ?_, fun h => ?_, fun h1 h2 h3 => ?_⟩
  · simp [FormProcTokenParse, atom, parseFloatingPointLiteral, h,
      hnn _ h (by decide)]
  · simp [FormProcTokenParse, atom, parseFloatingPointLiteral, h,
      hnn _ h (by decide)]
  · simp [FormProcTokenParse, atom, parseFloatingPointLiteral, h,
      hnn _ h (by decide)]
  · simp [FormProcTokenParse, atom, parseFloatingPointLiteral, h1, h2, h3]

theorem floatingPoint_literal_witness :
    FormProcTokenParse sampleEnv emptyUnits emptyBlock
        (atom TokenType.FloatingPoint "1.5".toList) false false type_double
        freshPR
      = some { ret := true, units := emptyUnits, block := emptyBlock,
               pr := { freshPR with
                 block := 1, type := type_double,
                 value := Value.constFP FPKind.Double "1.5".toList } }
    ∧ FormProcTokenParse sampleEnv emptyUnits emptyBlock
        (atom TokenType.FloatingPoint "1.5".toList) false false type_int
        freshPR
      = some { ret := true, units := emptyUnits, block := emptyBlock,
               pr := { freshPR with
                 block := 1, type := type_float,
                 value := Value.constFP FPKind.Float "1.5".toList } } :=
  ⟨(floatingPoint_literal sampleEnv emptyUnits emptyBlock "1.5".toList false
      false type_double freshPR).2.1 rfl,
   (floatingPoint_literal sampleEnv emptyUnits emptyBlock "1.5".toList false
      false type_int freshPR).2.2.2 (by decide) (by decide) (by decide)⟩

/-! ## C13: boolean literals -/

theorem tokenCases_bool (env : Env) (units : Units) (block : BasicBlock)
    (node : Node) (text : List Char) (get_address : Bool) (pr : ParseResult)
    (h : text = "true".toList ∨ text = "false".toList) :
    tokenCases env units block node
        { type := TokenType.String, str_value := text } get_address pr
      = some { ret := true, units := units, block := block,
               pr := pr.set block type_bool
                 (Value.constInt 1 (if text = "true".toList then 1 else 0)) } := by
  rcases h with h | h <;> subst h <;> rfl

/-- C13. For an identifier token whose text is exactly `true` or exactly
`false`, resolved without enum-literal attempt, `FormProcTokenParse` succeeds
with the boolean type and the 1-bit constant 1 for `true` and 0 for `false`,
the unit state and the block untouched, whatever the scope holds; and for
every other text `parseBoolLiteral` leaves the `ParseResult` as it was. -/
theorem bool_literal (env : Env) (units : Units) (block : BasicBlock)
    (text : List Char) (get_address core : Bool) (wanted_type : DType)
    (pr : ParseResult) :
    (noEnumHint units wanted_type = true →
      FormProcTokenParse env units block (atom TokenType.String "true".toList)
          get_address core wanted_type pr
        = some { ret := true, units := units, block := block,
                 pr := pr.set block type_bool (Value.constInt 1 1) }
      ∧ FormProcTokenParse env units block
          (atom TokenType.String "false".toList) get_address core wanted_type pr
        = some { ret := true, units := units, block := block,
                 pr := pr.set block type_bool (Value.constInt 1 0) })
    ∧ (text ≠ "true".toList ∧ text ≠ "false".toList →
      parseBoolLiteral block { type := TokenType.String, str_value := text } pr
        = pr) := by
  refine ⟨fun hno => ⟨?_, ?_⟩, fun h => parseBoolLiteral_other block text pr h⟩
  · rw [FormProcTokenParse_noEnumHint env units block _ _ get_address core
      wanted_type pr (by decide) (by decide) hno]
    exact tokenCases_bool env units block _ _ get_address pr (Or.inl rfl)
  · rw [FormProcTokenParse_noEnumHint env units block _ _ get_address core
      wanted_type pr (by decide) (by decide) hno]
    exact tokenCases_bool env units block _ _ get_address pr (Or.inr rfl)

theorem bool_literal_witness :
    FormProcTokenParse sampleEnv oddScopeUnits emptyBlock
        (atom TokenType.String "true".toList) false false DType.null freshPR
      = some { ret := true, units := oddScopeUnits, block := emptyBlock,
               pr := { freshPR with
                 block := 1, type := type_bool,
                 value := Value.constInt 1 1 } }
    ∧ parseBoolLiteral emptyBlock
        { type := TokenType.String, str_value := "True".toList } freshPR
      = freshPR :=
  ⟨((bool_literal sampleEnv oddScopeUnits emptyBlock "True".toList false false
      DType.null freshPR).1 (by decide)).1,
   (bool_literal sampleEnv oddScopeUnits emptyBlock "True".toList false false
      DType.null freshPR).2 (by decide)⟩

/-! ## C14: list nodes -/

/-- C14, amended. For every node that is not a token `parseStringLiteral`
fails: it records one `UnexpectedElement` diagnostic (an atom was expected
for a literal, a list found), returns no constant and leaves `*size` alone,
without reading the node's token. `FormProcTokenParse` does not test
`is_token`: it reads the node's token at once, and on a node that has none it
has no defined outcome. -/
theorem list_node (env : Env) (units : Units) (block : BasicBlock)
    (type : DType) (node : Node) (size : Nat) (get_address core : Bool)
    (wanted_type : DType) (pr : ParseResult)
    (hlist : node.is_token = false) :
    parseStringLiteral env.nt units type node size
      = some { ret := Value.null, size := size,
               units := units.addError
                 (Error.new ErrorInst.UnexpectedElement node
                   [ErrArg.text "atom".toList, ErrArg.text "literal".toList,
                    ErrArg.text "list".toList]) }
    ∧ (node.token = none →
        FormProcTokenParse env units block node get_address core wanted_type pr
          = none) := by
  constructor
  · simp only [parseStringLiteral, hlist, Bool.not_false, if_true]
  · intro h
    simp only [FormProcTokenParse, h]

theorem list_node_witness :
    parseStringLiteral sampleNT emptyUnits
        (getPointerType (getConstType type_char)) listNode 0
      = some { ret := Value.null, size := 0,
               units := emptyUnits.addError
                 (Error.new ErrorInst.UnexpectedElement listNode
                   [ErrArg.text "atom".toList, ErrArg.text "literal".toList,
                    ErrArg.text "list".toList]) } :=
  (list_node sampleEnv emptyUnits emptyBlock
    (getPointerType (getConstType type_char)) listNode 0 false false
    DType.null freshPR rfl).1

/-- C14, counterexample. On a list node `FormProcTokenParse` returns no
failure and records no diagnostic: with no token attached it has no defined
outcome, and with a token attached it resolves that token, here with
success, the flag `is_token` never being read. -/
theorem list_node_not_rejected :
    FormProcTokenParse sampleEnv emptyUnits emptyBlock listNode false false
        DType.null freshPR = none
    ∧ (FormProcTokenParse sampleEnv emptyUnits emptyBlock
        { is_token := false,
          token := some { type := TokenType.Int, str_value := "1".toList } }
        false false DType.null freshPR).map
      (fun out => (out.ret, out.units.ctx.er)) = some (true, []) := by
  decide

/-! ## C15: tokens of the wrong category -/

theorem parseStringLiteral_pcchar (nt : NativeTypes) (units : Units)
    (text : List Char) (size : Nat) :
    parseStringLiteral nt units (getPointerType (getConstType type_char))
        (atom TokenType.StringLiteral text) size
      = some { ret := stringLiteralInit text,
               size := (translateSpec text).length + 1, units := units } := by
  have hb : (getPointerType (getConstType type_char)).base_type
      = BaseType.None := rfl
  have hu : underlying_type (getPointerType (getConstType type_char))
      = BaseType.Char := rfl
  simp only [parseStringLiteral, atom, getPointerType, escapeLoop_eq] at hb hu ⊢
  simp [hb, hu, stringLiteralInit]

/-- The string-literal case, spelled out: failure of `toLLVMType`, then the
clash of the generated name, then success. -/
theorem tokenCases_stringLiteral (env : Env) (units : Units)
    (block : BasicBlock) (text : List Char) (get_address : Bool)
    (pr : ParseResult) :
    tokenCases env units block (atom TokenType.StringLiteral text)
        { type := TokenType.StringLiteral, str_value := text } get_address pr
      = if (env.toLLVMType units.ctx (stringLiteralType text)).1 = true then
          match addVariable
              { units.ctx with er := units.ctx.er ++
                  (env.toLLVMType units.ctx (stringLiteralType text)).2 }
              (stringLiteralName units) (stringLiteralVar units text) with
          | none =>
            some { ret := false,
                   units := Units.addError
                     { ctx := { units.ctx with er := units.ctx.er ++
                         (env.toLLVMType units.ctx (stringLiteralType text)).2 },
                       module := stringLiteralModule units text,
                       var_count := units.var_count + 1 }
                     (Error.new ErrorInst.RedefinitionOfVariable
                       (atom TokenType.StringLiteral text)
                       [ErrArg.text (stringLiteralName units)]),
                   block := block, pr := pr }
          | some ctx =>
            some { ret := true,
                   units := { ctx := ctx,
                              module := stringLiteralModule units text,
                              var_count := units.var_count + 1 },
                   block := { block with insts := block.insts ++
                     [Value.gep (Value.global (stringLiteralName units)) 0 0] },
                   pr := pr.set block
                     (getPointerType (getConstType type_char))
                     (Value.gep (Value.global (stringLiteralName units)) 0 0) }
        else
          some { ret := false,
                 units := { units with ctx := { units.ctx with
                   er := units.ctx.er ++
                     (env.toLLVMType units.ctx (stringLiteralType text)).2 } },
                 block := block, pr := pr } := by
  unfold tokenCases
  simp only [beq_iff_eq, reduceCtorEq, if_false, if_true,
    parseStringLiteral_pcchar]
  rcases hl : env.toLLVMType units.ctx (stringLiteralType text) with ⟨ok, errs⟩
  have hl2 : env.toLLVMType units.ctx
      (getArrayType (getConstType type_char) ((translateSpec text).length + 1))
      = (ok, errs) := hl
  cases ok with
  | false =>
    simp [stringLiteralInit, Value.isNonNull, hl2]
  | true =>
    simp only [stringLiteralInit, Value.isNonNull, hl2, Bool.not_true,
      Bool.false_eq_true, if_false, if_true]
    rfl

/-! ## The generated names -/

theorem decodeDigits_append (l : List Char) (d : Char) :
    decodeDigits (l ++ [d]) = 10 * decodeDigits l + (d.toNat - 48) := by
  simp [decodeDigits, List.foldl_append]

theorem digitChar_decode (k : Nat) (h : k < 10) :
    (Nat.digitChar k).toNat - 48 = k ∧ Nat.digitChar k ≠ NUL := by
  interval_cases k <;> exact ⟨rfl, by decide⟩

/-- The decimal digits printed for `n` read back as `n`, and none is NUL. -/
theorem toDigitsCore_spec : ∀ (fuel n : Nat) (ds : List Char), n < fuel →
    ∃ l, Nat.toDigitsCore 10 fuel n ds = l ++ ds ∧ decodeDigits l = n
      ∧ ∀ c ∈ l, c ≠ NUL := by
  intro fuel
  induction fuel with
  | zero => intro n ds h; omega
  | succ fuel ih =>
    intro n ds h
    obtain ⟨hd1, hd2⟩ := digitChar_decode (n % 10) (Nat.mod_lt n (by decide))
    rw [Nat.toDigitsCore]
    by_cases h0 : n / 10 = 0
    · refine ⟨[Nat.digitChar (n % 10)], by simp [h0], ?_, ?_⟩
      · have : decodeDigits [Nat.digitChar (n % 10)]
            = (Nat.digitChar (n % 10)).toNat - 48 := by simp [decodeDigits]
        rw [this, hd1]
        omega
      · intro c hc
        simp only [List.mem_singleton] at hc
        rw [hc]; exact hd2
    · obtain ⟨l, hl1, hl2, hl3⟩ := ih (n / 10) (Nat.digitChar (n % 10) :: ds)
        (by omega)
      refine ⟨l ++ [Nat.digitChar (n % 10)], by simp [h0, hl1], ?_, ?_⟩
      · rw [decodeDigits_append, hl2, hd1]
        omega
      · intro c hc
        rcases List.mem_append.mp hc with hc | hc
        · exact hl3 c hc
        · simp only [List.mem_singleton] at hc
          rw [hc]; exact hd2

theorem repr_toList_spec (n : Nat) :
    decodeDigits (Nat.repr n).toList = n ∧ ∀ c ∈ (Nat.repr n).toList, c ≠ NUL := by
  obtain ⟨l, h1, h2, h3⟩ := toDigitsCore_spec (n + 1) n [] (by omega)
  have : (Nat.repr n).toList = l := by
    simp only [Nat.repr, Nat.toDigits, h1, List.append_nil, List.asString]
    rfl
  rw [this]
  exact ⟨h2, h3⟩

theorem stringLiteralName_eq (units : Units) :
    stringLiteralName units = "_dv".toList ++ (Nat.repr units.var_count).toList := by
  unfold stringLiteralName getUnusedVarname
  apply c_str_of_nulFree
  simp only [nulFree, List.all_append, Bool.and_eq_true, List.all_eq_true,
    bne_iff_ne, ne_eq]
  refine ⟨by decide, fun c hc => (repr_toList_spec units.var_count).2 c hc⟩

/-- Distinct counters give distinct names. -/
theorem stringLiteralName_inj (u1 u2 : Units)
    (h : stringLiteralName u1 = stringLiteralName u2) :
    u1.var_count = u2.var_count := by
  rw [stringLiteralName_eq, stringLiteralName_eq] at h
  have h2 := List.append_cancel_left h
  rw [← (repr_toList_spec u1.var_count).1, ← (repr_toList_spec u2.var_count).1, h2]

theorem addVariable_some (ctx ctx2 : Context) (name : List Char)
    (var : Variable) (h : addVariable ctx name var = some ctx2) :
    ctx.ns.any (fun v => v.name == name) = false
    ∧ ctx2 = { ctx with ns := var :: ctx.ns } := by
  unfold addVariable at h
  split at h
  · cases h
  · rename_i hb
    simp only [Option.some.injEq] at h
    exact ⟨by simpa using hb, h.symm⟩

theorem stringLiteralModule_mem (units : Units) (text : List Char) :
    ∃ g ∈ stringLiteralModule units text,
      g.name = stringLiteralName units
      ∧ g.linkage = some Linkage.Intern
      ∧ g.initializer = stringLiteralInit text
      ∧ g.constant = true := by
  have hex : ∃ g ∈ getOrInsertGlobal units.module (stringLiteralName units)
      (stringLiteralType text), g.name = stringLiteralName units := by
    unfold getOrInsertGlobal
    split
    · rename_i h
      obtain ⟨g, hg, hn⟩ := List.any_eq_true.mp h
      exact ⟨g, hg, by simpa using hn⟩
    · exact ⟨_, List.mem_append_right _ (List.mem_singleton.mpr rfl), rfl⟩
  obtain ⟨g, hg, hn⟩ := hex
  refine ⟨{ g with linkage := some Linkage.Intern,
                   initializer := stringLiteralInit text, constant := true },
    ?_, hn, rfl, rfl, rfl⟩
  unfold stringLiteralModule setGlobal
  refine List.mem_map.mpr ⟨g, hg, ?_⟩
  simp [hn]

/-- What a successful string-literal resolution leaves behind. -/
theorem stringLiteral_success (env : Env) (units : Units) (block : BasicBlock)
    (text : List Char) (get_address core : Bool) (wanted_type : DType)
    (pr : ParseResult) (out : ParseOutcome)
    (hno : noEnumHint units wanted_type = true)
    (h : FormProcTokenParse env units block
      (atom TokenType.StringLiteral text) get_address core wanted_type pr
      = some out)
    (hret : out.ret = true) :
    (env.toLLVMType units.ctx (stringLiteralType text)).1 = true
    ∧ units.ctx.ns.any (fun v => v.name == stringLiteralName units) = false
    ∧ out.units.ctx = { units.ctx with
        er := units.ctx.er ++
          (env.toLLVMType units.ctx (stringLiteralType text)).2,
        ns := stringLiteralVar units text :: units.ctx.ns }
    ∧ out.units.module = stringLiteralModule units text
    ∧ out.units.var_count = units.var_count + 1
    ∧ out.block = { block with insts := block.insts ++
        [Value.gep (Value.global (stringLiteralName units)) 0 0] }
    ∧ out.pr = pr.set block (getPointerType (getConstType type_char))
        (Value.gep (Value.global (stringLiteralName units)) 0 0) := by
  rw [FormProcTokenParse_noEnumHint env units block _ _ get_address core
    wanted_type pr (by decide) (by decide) hno,
    tokenCases_stringLiteral] at h
  split at h
  · rename_i hok
    split at h
    · simp only [Option.some.injEq] at h
      subst h
      cases hret
    · rename_i ctx hadd
      simp only [Option.some.injEq] at h
      subst h
      obtain ⟨h1, h2⟩ := addVariable_some _ _ _ _ hadd
      exact ⟨hok, h1, h2, rfl, rfl, rfl, rfl⟩
  · simp only [Option.some.injEq] at h
    subst h
    cases hret

/-! ## C16: the result of a string literal -/

/-- C16. For every string-literal token on which `FormProcTokenParse`
succeeds, no enum-literal attempt being made: the result type is
pointer-to-const-char; the result value is the address computation with
indices (0, 0) on the global of the generated name, which is the one
instruction emitted; the call writes none of the address fields, so that a
result started from a `ParseResult` without address is no lvalue and carries
no address; the variable registered first in the active scope has the
generated name, that global as storage, internal linkage and the type array
of const char of the size `parseStringLiteral` computes; and the module
holds a global of that name with internal linkage, the constant flag set,
and the constant of `parseStringLiteral` as initializer. -/
theorem stringLiteral_result (env : Env) (units : Units) (block : BasicBlock)
    (text : List Char) (get_address core : Bool) (wanted_type : DType)
    (pr : ParseResult) (out : ParseOutcome)
    (hno : noEnumHint units wanted_type = true)
    (h : FormProcTokenParse env units block
      (atom TokenType.StringLiteral text) get_address core wanted_type pr
      = some out)
    (hret : out.ret = true) :
    out.pr.type = getPointerType (getConstType type_char)
    ∧ out.pr.value = Value.gep (Value.global (stringLiteralName units)) 0 0
    ∧ out.block.insts = block.insts ++
        [Value.gep (Value.global (stringLiteralName units)) 0 0]
    ∧ sameAddress pr out.pr
    ∧ (noAddress pr →
        out.pr.value_is_lvalue = false ∧ out.pr.address_of_value = Value.null)
    ∧ (∃ r var, parseStringLiteral env.nt units
            (getPointerType (getConstType type_char))
            (atom TokenType.StringLiteral text) 0 = some r
        ∧ out.units.ctx.ns.head? = some var
        ∧ var.name = stringLiteralName units
        ∧ var.value = Value.global (stringLiteralName units)
        ∧ var.linkage = Linkage.Intern
        ∧ var.type = getArrayType (getConstType type_char) r.size
        ∧ ∃ g ∈ out.units.module, g.name = stringLiteralName units
            ∧ g.linkage = some Linkage.Intern ∧ g.constant = true
            ∧ g.initializer = r.ret) := by
  obtain ⟨_, _, hctx, hmod, _, hblock, hpr⟩ := stringLiteral_success env units
    block text get_address core wanted_type pr out hno h hret
  obtain ⟨g, hg, hg1, hg2, hg3, hg4⟩ := stringLiteralModule_mem units text
  refine ⟨by rw [hpr]; rfl, by rw [hpr]; rfl, by rw [hblock],
    by rw [hpr]; exact sameAddress_set _ _ _ _, ?_, ?_⟩
  · rintro ⟨h1, _, h3⟩
    rw [hpr]
    exact ⟨h3, h1⟩
  · refine ⟨_, stringLiteralVar units text,
      parseStringLiteral_pcchar env.nt units text 0, by rw [hctx]; rfl, rfl,
      rfl, rfl, rfl, g, by rw [hmod]; exact hg, hg1, hg2, hg4, hg3⟩

theorem stringLiteral_result_witness :
    FormProcTokenParse sampleEnv emptyUnits emptyBlock
        (atom TokenType.StringLiteral "hi".toList) false false DType.null
        freshPR = some (hiOutcome emptyUnits)
    ∧ (hiOutcome emptyUnits).pr.type = getPointerType (getConstType type_char)
    ∧ (hiOutcome emptyUnits).pr.value
        = Value.gep (Value.global "_dv0".toList) 0 0
    ∧ (hiOutcome emptyUnits).pr.value_is_lvalue = false
    ∧ (hiOutcome emptyUnits).pr.address_of_value = Value.null :=
  have h := stringLiteral_result sampleEnv emptyUnits emptyBlock "hi".toList
    false false DType.null freshPR (hiOutcome emptyUnits) (by decide)
    (by decide) rfl
  ⟨by decide, h.1, h.2.1, (h.2.2.2.2.1 ⟨rfl, rfl, rfl⟩).1,
    (h.2.2.2.2.1 ⟨rfl, rfl, rfl⟩).2⟩

/-! ## C11: the names of string-literal globals -/

/-- C11. Take two successful string-literal resolutions by
`FormProcTokenParse` (no enum-literal attempt), the second on a state of the
unit whose name counter is not behind the one the first left: whatever the
two texts, the names under which they register differ, each outcome's module
holds a global of its name and each outcome's active scope a variable of its
name. And a resolution whose generated name is already bound in the active
scope, `toLLVMType` having succeeded, fails: it records
`RedefinitionOfVariable` for that name, writes no result, emits nothing and
leaves the scope as it was. -/
theorem stringLiteral_names (env : Env) (u1 u2 : Units) (b1 b2 : BasicBlock)
    (text1 text2 : List Char) (ga1 ga2 core1 core2 : Bool)
    (wt1 wt2 : DType) (pr1 pr2 : ParseResult) (out1 out2 : ParseOutcome) :
    (noEnumHint u1 wt1 = true → noEnumHint u2 wt2 = true →
      FormProcTokenParse env u1 b1 (atom TokenType.StringLiteral text1) ga1
        core1 wt1 pr1 = some out1 → out1.ret = true →
      FormProcTokenParse env u2 b2 (atom TokenType.StringLiteral text2) ga2
        core2 wt2 pr2 = some out2 → out2.ret = true →
      out1.units.var_count ≤ u2.var_count →
        stringLiteralName u1 ≠ stringLiteralName u2
        ∧ (∃ g ∈ out1.units.module, g.name = stringLiteralName u1)
        ∧ (∃ g ∈ out2.units.module, g.name = stringLiteralName u2)
        ∧ (∃ v ∈ out1.units.ctx.ns, v.name = stringLiteralName u1)
        ∧ (∃ v ∈ out2.units.ctx.ns, v.name = stringLiteralName u2))
    ∧ (noEnumHint u1 wt1 = true →
      (env.toLLVMType u1.ctx (stringLiteralType text1)).1 = true →
      u1.ctx.ns.any (fun v => v.name == stringLiteralName u1) = true →
        ∃ out, FormProcTokenParse env u1 b1
            (atom TokenType.StringLiteral text1) ga1 core1 wt1 pr1 = some out
          ∧ out.ret = false
          ∧ out.units.ctx.er.getLast?
              = some (Error.new ErrorInst.RedefinitionOfVariable
                  (atom TokenType.StringLiteral text1)
                  [ErrArg.text (stringLiteralName u1)])
          ∧ out.units.ctx.ns = u1.ctx.ns
          ∧ out.block = b1 ∧ out.pr = pr1) := by
  constructor
  · intro hno1 hno2 h1 hr1 h2 hr2 hlater
    obtain ⟨_, _, hctx1, hmod1, hcount1, _, _⟩ := stringLiteral_success env u1
      b1 text1 ga1 core1 wt1 pr1 out1 hno1 h1 hr1
    obtain ⟨_, _, hctx2, hmod2, _, _, _⟩ := stringLiteral_success env u2
      b2 text2 ga2 core2 wt2 pr2 out2 hno2 h2 hr2
    obtain ⟨g1, hg1, hn1, _⟩ := stringLiteralModule_mem u1 text1
    obtain ⟨g2, hg2, hn2, _⟩ := stringLiteralModule_mem u2 text2
    refine ⟨?_, ⟨g1, by rw [hmod1]; exact hg1, hn1⟩,
      ⟨g2, by rw [hmod2]; exact hg2, hn2⟩,
      ⟨stringLiteralVar u1 text1, by rw [hctx1]; exact List.mem_cons_self _ _,
        rfl⟩,
      ⟨stringLiteralVar u2 text2, by rw [hctx2]; exact List.mem_cons_self _ _,
        rfl⟩⟩
    intro heq
    have := stringLiteralName_inj u1 u2 heq
    omega
  · intro hno hok hbound
    rw [FormProcTokenParse_noEnumHint env u1 b1 _ _ ga1 core1 wt1 pr1
      (by decide) (by decide) hno, tokenCases_stringLiteral]
    have hadd : addVariable
        { u1.ctx with er := u1.ctx.er ++
            (env.toLLVMType u1.ctx (stringLiteralType text1)).2 }
        (stringLiteralName u1) (stringLiteralVar u1 text1) = none := by
      simp only [addVariable, hbound, if_true]
    simp only [hok, if_true, hadd]
    refine ⟨_, rfl, rfl, ?_, rfl, rfl, rfl⟩
    simp [Units.addError, Context.addError]

theorem stringLiteral_names_witness :
    (stringLiteralName emptyUnits
        ≠ stringLiteralName (hiOutcome emptyUnits).units
      ∧ (∃ g ∈ (hiOutcome emptyUnits).units.module,
          g.name = stringLiteralName emptyUnits)
      ∧ (∃ g ∈ (hiOutcome (hiOutcome emptyUnits).units).units.module,
          g.name = stringLiteralName (hiOutcome emptyUnits).units)
      ∧ (∃ v ∈ (hiOutcome emptyUnits).units.ctx.ns,
          v.name = stringLiteralName emptyUnits)
      ∧ (∃ v ∈ (hiOutcome (hiOutcome emptyUnits).units).units.ctx.ns,
          v.name = stringLiteralName (hiOutcome emptyUnits).units))
    ∧ ∃ out, FormProcTokenParse sampleEnv clashUnits emptyBlock
          (atom TokenType.StringLiteral "hi".toList) false false DType.null
          freshPR = some out
        ∧ out.ret = false
        ∧ out.units.ctx.er.getLast?
            = some (Error.new ErrorInst.RedefinitionOfVariable
                (atom TokenType.StringLiteral "hi".toList)
                [ErrArg.text (stringLiteralName clashUnits)])
        ∧ out.units.ctx.ns = clashUnits.ctx.ns
        ∧ out.block = emptyBlock ∧ out.pr = freshPR :=
  ⟨(stringLiteral_names sampleEnv emptyUnits (hiOutcome emptyUnits).units
      emptyBlock emptyBlock "hi".toList "hi".toList false false false false
      DType.null DType.null freshPR freshPR (hiOutcome emptyUnits)
      (hiOutcome (hiOutcome emptyUnits).units)).1
      (by decide) (by decide) (by decide) rfl (by decide) rfl (by decide),
   (stringLiteral_names sampleEnv clashUnits clashUnits emptyBlock emptyBlock
      "hi".toList "hi".toList false false false false DType.null DType.null
      freshPR freshPR (hiOutcome clashUnits) (hiOutcome clashUnits)).2
      (by decide) (by decide) (by decide)⟩

/-! ## C19: `get_address` and literals -/

/-- C19. With no enum-literal attempt, for every integer, floating-point and
string-literal token, and for every identifier token that is a boolean
literal or a character literal (one of the six names or a single non-NUL
character), `FormProcTokenParse` with `get_address` set has the very outcome
it has with `get_address` unset: the same flag, result, unit state and
instructions. When it succeeds it has written none of the address fields,
so that a result started from a `ParseResult` without address is no lvalue
and carries no address. -/
theorem get_address_irrelevant (env : Env) (units : Units)
    (block : BasicBlock) (type : TokenType) (text : List Char) (core : Bool)
    (wanted_type : DType) (pr : ParseResult)
    (hno : noEnumHint units wanted_type = true)
    (hlit : type = TokenType.Int ∨ type = TokenType.FloatingPoint
      ∨ type = TokenType.StringLiteral
      ∨ (type = TokenType.String
          ∧ (text = "true".toList ∨ text = "false".toList
             ∨ ∃ rest b, text = '#' :: '\\' :: rest
                 ∧ charLiteralByteSpec rest = some b
                 ∧ nulFree rest = true))) :
    FormProcTokenParse env units block (atom type text) true core
        wanted_type pr
      = FormProcTokenParse env units block (atom type text) false core
        wanted_type pr
    ∧ ∀ out, FormProcTokenParse env units block (atom type text) true core
          wanted_type pr = some out → out.ret = true →
        sameAddress pr out.pr
        ∧ (noAddress pr → out.pr.value_is_lvalue = false
            ∧ out.pr.address_of_value = Value.null) := by
  constructor
  · rcases hlit with h | h | h | ⟨h, hs⟩
    · subst h
      simp only [FormProcTokenParse, atom, beq_self_eq_true, if_true]
    · subst h
      simp only [FormProcTokenParse, atom, beq_iff_eq, reduceCtorEq, if_false,
        if_true]
    · subst h
      rw [FormProcTokenParse_noEnumHint env units block _ _ true core
        wanted_type pr (by decide) (by decide) hno,
        FormProcTokenParse_noEnumHint env units block _ _ false core
        wanted_type pr (by decide) (by decide) hno,
        tokenCases_stringLiteral, tokenCases_stringLiteral]
    · subst h
      rw [FormProcTokenParse_noEnumHint env units block _ _ true core
        wanted_type pr (by decide) (by decide) hno,
        FormProcTokenParse_noEnumHint env units block _ _ false core
        wanted_type pr (by decide) (by decide) hno]
      rcases hs with hs | hs | ⟨rest, b, hs, hb, hnul⟩
      · rw [tokenCases_bool env units block _ _ true pr (Or.inl hs),
          tokenCases_bool env units block _ _ false pr (Or.inl hs)]
      · rw [tokenCases_bool env units block _ _ true pr (Or.inr hs),
          tokenCases_bool env units block _ _ false pr (Or.inr hs)]
      · subst hs
        rw [tokenCases_charLiteral env units block rest b true pr hb hnul,
          tokenCases_charLiteral env units block rest b false pr hb hnul]
  · intro out h hret
    have hsame : sameAddress pr out.pr := by
      rcases FormProcTokenParse_shape env units block type text true core
          wanted_type pr out hno h hret with hs | ⟨_, _, hga, _⟩
      · exact hs
      · cases hga
    refine ⟨hsame, ?_⟩
    rintro ⟨h1, _, h3⟩
    exact ⟨hsame.2.2.trans h3, hsame.1.trans h1⟩

theorem get_address_irrelevant_witness :
    FormProcTokenParse sampleEnv scopeUnits emptyBlock
        (atom TokenType.String "#\\TAB".toList) true false DType.null freshPR
      = FormProcTokenParse sampleEnv scopeUnits emptyBlock
        (atom TokenType.String "#\\TAB".toList) false false DType.null freshPR
    ∧ FormProcTokenParse sampleEnv emptyUnits emptyBlock
        (atom TokenType.StringLiteral "hi".toList) true false DType.null
        freshPR
      = some (hiOutcome emptyUnits) :=
  ⟨(get_address_irrelevant sampleEnv scopeUnits emptyBlock TokenType.String
      "#\\TAB".toList false DType.null freshPR (by decide)
      (Or.inr (Or.inr (Or.inr ⟨rfl, Or.inr (Or.inr
        ⟨"TAB".toList, 9, rfl, by decide, by decide⟩)⟩)))).1,
   ((get_address_irrelevant sampleEnv emptyUnits emptyBlock
      TokenType.StringLiteral "hi".toList false DType.null freshPR
      (by decide) (Or.inr (Or.inr (Or.inl rfl)))).1).trans (by decide)⟩

/-! ## C18: the log after a success -/

theorem parseCharLiteral_keeps_ctx (nt : NativeTypes) (ctx : Context)
    (block : BasicBlock) (node : Node) (type : TokenType) (text : List Char)
    (pr : ParseResult) (h : rejectedCharLiteral text = false) :
    (parseCharLiteral nt ctx block node { type := type, str_value := text }
      pr).1 = ctx := by
  unfold parseCharLiteral
  dsimp only
  by_cases hg : (decide (text.length ≥ 3) && text.get? 0 == some '#'
      && text.get? 1 == some '\\') = true
  · have hv : (charLiteralByteSpec ((c_str text).drop 2)).isNone = false := by
      simp only [rejectedCharLiteral, hg, Bool.true_and] at h
      exact h
    rw [if_pos hg]
    simp only [charLiteralByteSpec] at hv
    simp only [beq_iff_eq]
    split_ifs at hv ⊢ <;> first
      | rfl
      | (split at hv
         · rfl
         · simp at hv)
  · rw [if_neg hg]

theorem variableCase_units (units : Units) (block : BasicBlock) (node : Node)
    (t : Token) (get_address : Bool) (pr : ParseResult)
    (hret : (variableCase units block node t get_address pr).ret = true) :
    (variableCase units block node t get_address pr).units = units := by
  unfold variableCase at hret ⊢
  cases hv : getVariable units.ctx (c_str t.str_value) with
  | none => rw [hv] at hret; cases hret
  | some var =>
    simp only []
    cases get_address <;> cases var.type.is_array <;> rfl

theorem tokenCases_keeps_log (env : Env) (units : Units) (block : BasicBlock)
    (type : TokenType) (text : List Char) (get_address : Bool)
    (pr : ParseResult) (out : ParseOutcome)
    (hll : ∀ ctx ty, (env.toLLVMType ctx ty).1 = true →
      (env.toLLVMType ctx ty).2 = [])
    (hchar : type = TokenType.String → rejectedCharLiteral text = false)
    (h : tokenCases env units block (atom type text)
      { type := type, str_value := text } get_address pr = some out)
    (hret : out.ret = true) :
    out.units.ctx.er = units.ctx.er := by
  by_cases hs : type = TokenType.String
  · subst hs
    have hk := fun p => parseCharLiteral_keeps_ctx env.nt units.ctx block
      (atom TokenType.String text) TokenType.String text p (hchar rfl)
    unfold tokenCases at h
    dsimp only at h
    simp only [beq_self_eq_true, if_true] at h
    split at h
    · cases h; rfl
    · split at h
      · cases h
        simp only [hk]
      · cases h
        rw [variableCase_units _ _ _ _ _ _ hret]
        simp only [hk]
  · by_cases hl : type = TokenType.StringLiteral
    · subst hl
      rw [tokenCases_stringLiteral] at h
      split at h
      · rename_i hok
        split at h
        · cases h; cases hret
        · rename_i ctx hadd
          cases h
          obtain ⟨_, h2⟩ := addVariable_some _ _ _ _ hadd
          rw [h2]
          simp [hll _ _ hok]
      · cases h; cases hret
    · unfold tokenCases at h
      simp only [beq_iff_eq, hs, hl, if_false, Option.some.injEq] at h
      subst h
      cases hret

/-- Where the log does stay as it was. Let `toLLVMType` and the enum-literal
parser report nothing when they succeed, and let the token be no identifier
that `parseCharLiteral` rejects. Then whenever `FormProcTokenParse` returns
success on an atom, by a literal, a variable, a string literal, an enum
literal or after the rollback of a failed enum-literal attempt, the
diagnostic log is exactly what it was before the call. -/
theorem success_keeps_log (env : Env) (units : Units) (block : BasicBlock)
    (type : TokenType) (text : List Char) (get_address core : Bool)
    (wanted_type : DType) (pr : ParseResult) (out : ParseOutcome)
    (hll : ∀ ctx ty, (env.toLLVMType ctx ty).1 = true →
      (env.toLLVMType ctx ty).2 = [])
    (hen : ∀ u b n e w s g p,
      (env.FormLiteralEnumParse u b n e w s g p).res = true →
      (env.FormLiteralEnumParse u b n e w s g p).errors = [])
    (hchar : type = TokenType.String → rejectedCharLiteral text = false)
    (h : FormProcTokenParse env units block (atom type text) get_address core
      wanted_type pr = some out)
    (hret : out.ret = true) :
    out.units.ctx.er = units.ctx.er := by
  by_cases h1 : type = TokenType.Int
  · subst h1
    simp only [FormProcTokenParse, atom, beq_self_eq_true, if_true,
      Option.some.injEq] at h
    subst h
    rfl
  by_cases h2 : type = TokenType.FloatingPoint
  · subst h2
    simp only [FormProcTokenParse, atom, beq_iff_eq, reduceCtorEq, if_false,
      if_true, Option.some.injEq] at h
    subst h
    rfl
  by_cases hno : noEnumHint units wanted_type = true
  · rw [FormProcTokenParse_noEnumHint env units block _ _ get_address core
      wanted_type pr h1 h2 hno] at h
    exact tokenCases_keeps_log env units block type text get_address pr out
      hll hchar h hret
  · have hhint : (wanted_type.isNonNull && wanted_type.struct_name.length != 0
        && (getEnum units.ctx (c_str wanted_type.struct_name)).isSome) = true := by
      unfold noEnumHint at hno
      cases hc : (wanted_type.isNonNull && wanted_type.struct_name.length != 0
        && (getEnum units.ctx (c_str wanted_type.struct_name)).isSome) with
      | true => rfl
      | false => rw [hc] at hno; exact absurd rfl hno
    simp only [Bool.and_eq_true] at hhint
    obtain ⟨⟨hw1, hw2⟩, hsome⟩ := hhint
    obtain ⟨enum_obj, henum⟩ := Option.isSome_iff_exists.mp hsome
    simp only [FormProcTokenParse, atom, beq_iff_eq, h1, h2, if_false, hw1,
      hw2, Bool.and_self, if_true, henum] at h
    cases hst : getStruct units.ctx (c_str wanted_type.struct_name) with
    | none => rw [hst] at h; cases h
    | some st =>
      rw [hst] at h
      simp only [] at h
      split at h
      · rename_i hres
        simp only [Option.some.injEq] at h
        subst h
        simp [hen _ _ _ _ _ _ _ _ hres]
      · have := tokenCases_keeps_log env _ _ type text get_address _ out hll
          hchar h hret
        rw [this]
        exact popErrors_restores _ _

/-- C18, the code at the failing input. With an empty log and a variable
named `#`, backslash, `ab` in scope, `FormProcTokenParse` on the identifier
of that text returns success, resolving it to the variable, and the log
holds the `InvalidChar` diagnostic `parseCharLiteral` recorded on the way. -/
theorem success_leaves_InvalidChar :
    oddScopeUnits.ctx.er = []
    ∧ getVariable oddScopeUnits.ctx "#\\ab".toList
        = some { name := "#\\ab".toList, internal_name := "#\\ab".toList,
                 type := type_int, value := Value.storage 3,
                 linkage := Linkage.Auto }
    ∧ (FormProcTokenParse sampleEnv oddScopeUnits emptyBlock
        (atom TokenType.String "#\\ab".toList) false false DType.null
        freshPR).map
      (fun out => (out.ret, out.pr.value,
        out.units.ctx.er.map (fun e => (e.inst, e.args))))
      = some (true, Value.load (Value.storage 3),
          [(ErrorInst.InvalidChar, [ErrArg.text ['a', 'b']])]) := by
  decide

end dale
